import Mathlib

/-!
Verification of the geospatial core of the find-museum-gallery repository:
the haversine distance function and the bounding-box computation of
`src/lib/geo.ts`.

JavaScript numbers are IEEE-754 doubles.  The embedding idealises every
finite double as an exact real number and keeps the three non-finite
values (`NaN`, `Infinity`, `-Infinity`) explicit, so that the module's
finiteness gates, `NaN` propagation and infinity arithmetic are modelled
faithfully while the arithmetic on finite values is exact real
arithmetic.
-/

noncomputable section

open Real

open scoped Classical

/-- Model of a JavaScript number: an exact real for a finite double, or one
of the three non-finite values `NaN`, `Infinity`, `-Infinity`. -/
inductive JSNum where
  | finite (x : ℝ)
  | nan
  | posInf
  | negInf

namespace JSNum

/-- The real value of a finite JS number (junk value 0 on non-finite input;
only ever used under a finiteness guard). -/
def toReal : JSNum → ℝ
  | finite x => x
  | _ => 0

/-- JS `Number.isFinite`. -/
def isFinite : JSNum → Bool
  | finite _ => true
  | _ => false

/-- JS `<=` comparison: any comparison with `NaN` is false; infinities are
ordered below/above every finite value. -/
def jle : JSNum → JSNum → Prop
  | nan, _ => False
  | _, nan => False
  | negInf, _ => True
  | _, posInf => True
  | finite x, finite y => x ≤ y
  | _, _ => False

/-- JS `Math.max` on two arguments: `NaN` if either argument is `NaN`. -/
def jmax : JSNum → JSNum → JSNum
  | nan, _ => nan
  | _, nan => nan
  | posInf, _ => posInf
  | _, posInf => posInf
  | finite x, finite y => finite (max x y)
  | negInf, b => b
  | a, negInf => a

/-- JS `Math.min` on two arguments: `NaN` if either argument is `NaN`. -/
def jmin : JSNum → JSNum → JSNum
  | nan, _ => nan
  | _, nan => nan
  | negInf, _ => negInf
  | _, negInf => negInf
  | finite x, finite y => finite (min x y)
  | posInf, b => b
  | a, posInf => a

/-- JS `+` on doubles (finite part idealised as exact real addition). -/
def jadd : JSNum → JSNum → JSNum
  | nan, _ => nan
  | _, nan => nan
  | posInf, negInf => nan
  | negInf, posInf => nan
  | posInf, _ => posInf
  | _, posInf => posInf
  | negInf, _ => negInf
  | _, negInf => negInf
  | finite x, finite y => finite (x + y)

/-- JS `-` on doubles (finite part idealised as exact real subtraction). -/
def jsub : JSNum → JSNum → JSNum
  | nan, _ => nan
  | _, nan => nan
  | posInf, posInf => nan
  | negInf, negInf => nan
  | posInf, _ => posInf
  | negInf, _ => negInf
  | finite _, posInf => negInf
  | finite _, negInf => posInf
  | finite x, finite y => finite (x - y)

/-- JS `/` on doubles (finite part idealised as exact real division;
signed zeros are not modelled, division of a nonzero finite value by zero
is the infinity with the sign of the numerator). -/
def jdiv : JSNum → JSNum → JSNum
  | nan, _ => nan
  | _, nan => nan
  | posInf, posInf => nan
  | posInf, negInf => nan
  | negInf, posInf => nan
  | negInf, negInf => nan
  | posInf, finite y => if y < 0 then negInf else posInf
  | negInf, finite y => if y < 0 then posInf else negInf
  | finite _, posInf => finite 0
  | finite _, negInf => finite 0
  | finite x, finite y =>
      if y = 0 then (if x = 0 then nan else if 0 < x then posInf else negInf)
      else finite (x / y)

/-- JS `Math.sin`: `NaN` on every non-finite argument. -/
def jsin : JSNum → JSNum
  | finite x => finite (Real.sin x)
  | _ => nan

/-- JS `Math.cos`: `NaN` on every non-finite argument. -/
def jcos : JSNum → JSNum
  | finite x => finite (Real.cos x)
  | _ => nan

/-- JS `Math.asin`: `NaN` outside `[-1, 1]` and on every non-finite
argument. -/
def jasin : JSNum → JSNum
  | finite x => if x < -1 ∨ 1 < x then nan else finite (Real.arcsin x)
  | _ => nan

end JSNum

open JSNum

/-- Geographic coordinate, a pair of JS numbers (`src/lib/geo.ts`,
`GeoCoordinate`). -/
structure GeoCoordinate where
  latitude : JSNum
  longitude : JSNum

/-- Latitude/longitude axis-aligned rectangle (`src/lib/geo.ts`,
`BoundingBox`). -/
structure BoundingBox where
  minLatitude : JSNum
  maxLatitude : JSNum
  minLongitude : JSNum
  maxLongitude : JSNum

def EARTH_RADIUS_KM : ℝ := 6371

def MIN_LATITUDE : ℝ := -90

def MAX_LATITUDE : ℝ := 90

def MIN_LONGITUDE : ℝ := -180

def MAX_LONGITUDE : ℝ := 180

/-- Source helper `toRadians`, on (provably finite) values. -/
def toRadians (value : ℝ) : ℝ := value * π / 180

/-- Source helper `toDegrees`, on (provably finite) values. -/
def toDegrees (value : ℝ) : ℝ := value * 180 / π

/-- Source helper `toDegrees` lifted to a possibly non-finite JS number
(multiplication by the positive constant 180 and division by π preserve
infinities and propagate `NaN`). -/
def toDegreesNum : JSNum → JSNum
  | JSNum.finite x => JSNum.finite (toDegrees x)
  | JSNum.nan => JSNum.nan
  | JSNum.posInf => JSNum.posInf
  | JSNum.negInf => JSNum.negInf

/-- Source helper `clampLatitude`:
`Math.min(Math.max(value, MIN_LATITUDE), MAX_LATITUDE)`. -/
def clampLatitude (value : JSNum) : JSNum :=
  jmin (jmax value (JSNum.finite MIN_LATITUDE)) (JSNum.finite MAX_LATITUDE)

/-- Source helper `clampLongitude`:
`Math.min(Math.max(value, MIN_LONGITUDE), MAX_LONGITUDE)`. -/
def clampLongitude (value : JSNum) : JSNum :=
  jmin (jmax value (JSNum.finite MIN_LONGITUDE)) (JSNum.finite MAX_LONGITUDE)

/-- Source helper `isLatitudeInRange`:
`Number.isFinite(value) && value >= MIN_LATITUDE && value <= MAX_LATITUDE`. -/
def isLatitudeInRange (value : JSNum) : Prop :=
  value.isFinite = true ∧ jle (JSNum.finite MIN_LATITUDE) value ∧ jle value (JSNum.finite MAX_LATITUDE)

/-- Source helper `isLongitudeInRange`:
`Number.isFinite(value) && value >= MIN_LONGITUDE && value <= MAX_LONGITUDE`. -/
def isLongitudeInRange (value : JSNum) : Prop :=
  value.isFinite = true ∧ jle (JSNum.finite MIN_LONGITUDE) value ∧ jle value (JSNum.finite MAX_LONGITUDE)

/-- JS `Math.atan2 (y, x)` on finite doubles (idealised; signed zeros not
modelled, so `atan2 0 0 = 0`).  In this development it is only applied to
non-negative arguments. -/
def atan2 (y x : ℝ) : ℝ :=
  if 0 < x then arctan (y / x)
  else if x < 0 then (if 0 ≤ y then arctan (y / x) + π else arctan (y / x) - π)
  else if 0 < y then π / 2 else if y < 0 then -(π / 2) else 0

/-- The finite-argument body of `calculateHaversineDistanceKm`, executed
after the range gate has established that all four inputs are finite
doubles; float arithmetic idealised as exact real arithmetic. -/
def haversineKmReal (originLatDeg originLonDeg destLatDeg destLonDeg : ℝ) : ℝ :=
  let dLat := toRadians (destLatDeg - originLatDeg)
  let dLon := toRadians (destLonDeg - originLonDeg)
  let originLat := toRadians originLatDeg
  let destinationLat := toRadians destLatDeg
  let a := Real.sin (dLat / 2) ^ 2 +
    Real.sin (dLon / 2) ^ 2 * Real.cos originLat * Real.cos destinationLat
  let c := 2 * atan2 (Real.sqrt a) (Real.sqrt (1 - a))
  EARTH_RADIUS_KM * c

/-- Source `calculateHaversineDistanceKm`: returns `NaN` unless all four
coordinates pass the range/finiteness gate, else the haversine distance. -/
def calculateHaversineDistanceKm (origin destination : GeoCoordinate) : JSNum :=
  if ¬ isLatitudeInRange origin.latitude ∨ ¬ isLatitudeInRange destination.latitude ∨
      ¬ isLongitudeInRange origin.longitude ∨ ¬ isLongitudeInRange destination.longitude then
    JSNum.nan
  else
    JSNum.finite (haversineKmReal origin.latitude.toReal origin.longitude.toReal
      destination.latitude.toReal destination.longitude.toReal)

/-- Source local `safeRadiusKm = Math.max(radiusKm, 0.1)`. -/
def safeRadiusKm (radiusKm : JSNum) : JSNum := jmax radiusKm (JSNum.finite 0.1)

/-- Source local `angularDistance = safeRadiusKm / EARTH_RADIUS_KM`. -/
def angularDistance (radiusKm : JSNum) : JSNum :=
  jdiv (safeRadiusKm radiusKm) (JSNum.finite EARTH_RADIUS_KM)

/-- Source local `latRad = toRadians(center.latitude)` (center is finite
after the validity gate). -/
def latRad (center : GeoCoordinate) : ℝ := toRadians center.latitude.toReal

/-- Source local `lonRad = toRadians(center.longitude)` (center is finite
after the validity gate). -/
def lonRad (center : GeoCoordinate) : ℝ := toRadians center.longitude.toReal

/-- Source local `minLatitude = clampLatitude(toDegrees(latRad - angularDistance))`. -/
def minLatitudeOf (center : GeoCoordinate) (radiusKm : JSNum) : JSNum :=
  clampLatitude (toDegreesNum (jsub (JSNum.finite (latRad center)) (angularDistance radiusKm)))

/-- Source local `maxLatitude = clampLatitude(toDegrees(latRad + angularDistance))`. -/
def maxLatitudeOf (center : GeoCoordinate) (radiusKm : JSNum) : JSNum :=
  clampLatitude (toDegreesNum (jadd (JSNum.finite (latRad center)) (angularDistance radiusKm)))

/-- The source's pole-proximity branch condition
`minLatitude <= MIN_LATITUDE || maxLatitude >= MAX_LATITUDE`. -/
def poleCondition (center : GeoCoordinate) (radiusKm : JSNum) : Prop :=
  jle (minLatitudeOf center radiusKm) (JSNum.finite MIN_LATITUDE) ∨
    jle (JSNum.finite MAX_LATITUDE) (maxLatitudeOf center radiusKm)

/-- Source local
`deltaLongitude = Math.asin(Math.sin(angularDistance) / Math.cos(latRad))`. -/
def deltaLongitude (center : GeoCoordinate) (radiusKm : JSNum) : JSNum :=
  jasin (jdiv (jsin (angularDistance radiusKm)) (jcos (JSNum.finite (latRad center))))

/-- Source local `minLongitude = clampLongitude(toDegrees(lonRad - deltaLongitude))`. -/
def minLongitudeOf (center : GeoCoordinate) (radiusKm : JSNum) : JSNum :=
  clampLongitude (toDegreesNum (jsub (JSNum.finite (lonRad center)) (deltaLongitude center radiusKm)))

/-- Source local `maxLongitude = clampLongitude(toDegrees(lonRad + deltaLongitude))`. -/
def maxLongitudeOf (center : GeoCoordinate) (radiusKm : JSNum) : JSNum :=
  clampLongitude (toDegreesNum (jadd (JSNum.finite (lonRad center)) (deltaLongitude center radiusKm)))

/-- Source `computeBoundingBox`: whole-globe fallback on an invalid
center, clamped latitude extremes, pole-proximity short-circuit to the
full longitude span, else clamped longitude extremes. -/
def computeBoundingBox (center : GeoCoordinate) (radiusKm : JSNum) : BoundingBox :=
  if ¬ isLatitudeInRange center.latitude ∨ ¬ isLongitudeInRange center.longitude then
    { minLatitude := JSNum.finite MIN_LATITUDE
      maxLatitude := JSNum.finite MAX_LATITUDE
      minLongitude := JSNum.finite MIN_LONGITUDE
      maxLongitude := JSNum.finite MAX_LONGITUDE }
  else if poleCondition center radiusKm then
    { minLatitude := minLatitudeOf center radiusKm
      maxLatitude := maxLatitudeOf center radiusKm
      minLongitude := JSNum.finite MIN_LONGITUDE
      maxLongitude := JSNum.finite MAX_LONGITUDE }
  else
    { minLatitude := minLatitudeOf center radiusKm
      maxLatitude := maxLatitudeOf center radiusKm
      minLongitude := minLongitudeOf center radiusKm
      maxLongitude := maxLongitudeOf center radiusKm }

/-- A coordinate lies (componentwise, by JS comparisons) inside a box. -/
def inBox (b : BoundingBox) (p : GeoCoordinate) : Prop :=
  jle b.minLatitude p.latitude ∧ jle p.latitude b.maxLatitude ∧
    jle b.minLongitude p.longitude ∧ jle p.longitude b.maxLongitude

/-- The circular search area stays strictly clear of the antimeridian:
either the pole branch is taken (full longitude span, nothing to cross),
or the computed longitude half-width is a finite value whose interval
around the center longitude stays strictly inside (-180, 180).  This is
the side condition under which the bounding box is a true superset of
the haversine disc. -/
def noAntimeridianCrossing (center : GeoCoordinate) (radiusKm : JSNum) : Prop :=
  poleCondition center radiusKm ∨
    ∃ d : ℝ, deltaLongitude center radiusKm = JSNum.finite d ∧
      -180 < toDegrees (lonRad center) - toDegrees d ∧
      toDegrees (lonRad center) + toDegrees d < 180

/-! ### Constructor-level evaluation lemmas for the JS number model -/

namespace JSNum

@[simp] theorem toReal_finite (x : ℝ) : (finite x).toReal = x := rfl

@[simp] theorem isFinite_finite (x : ℝ) : (finite x).isFinite = true := rfl

@[simp] theorem isFinite_nan : nan.isFinite = false := rfl

@[simp] theorem isFinite_posInf : posInf.isFinite = false := rfl

@[simp] theorem isFinite_negInf : negInf.isFinite = false := rfl

@[simp] theorem jle_finite_finite (x y : ℝ) : jle (finite x) (finite y) ↔ x ≤ y := Iff.rfl

@[simp] theorem jle_nan_left (b : JSNum) : ¬ jle nan b := by cases b <;> exact id

@[simp] theorem jle_finite_nan (x : ℝ) : ¬ jle (finite x) nan := fun h => h

@[simp] theorem jle_posInf_nan : ¬ jle posInf nan := fun h => h

@[simp] theorem jle_negInf_nan : ¬ jle negInf nan := fun h => h

@[simp] theorem jle_finite_posInf (x : ℝ) : jle (finite x) posInf := trivial

@[simp] theorem jle_negInf_finite (x : ℝ) : jle negInf (finite x) := trivial

@[simp] theorem jle_finite_negInf (x : ℝ) : ¬ jle (finite x) negInf := fun h => h

@[simp] theorem jle_posInf_finite (x : ℝ) : ¬ jle posInf (finite x) := fun h => h

@[simp] theorem jmax_finite_finite (x y : ℝ) : jmax (finite x) (finite y) = finite (max x y) := rfl

@[simp] theorem jmax_nan_finite (y : ℝ) : jmax nan (finite y) = nan := rfl

@[simp] theorem jmax_posInf_finite (y : ℝ) : jmax posInf (finite y) = posInf := rfl

@[simp] theorem jmax_negInf_finite (y : ℝ) : jmax negInf (finite y) = finite y := rfl

@[simp] theorem jmin_finite_finite (x y : ℝ) : jmin (finite x) (finite y) = finite (min x y) := rfl

@[simp] theorem jmin_nan_finite (y : ℝ) : jmin nan (finite y) = nan := rfl

@[simp] theorem jmin_posInf_finite (y : ℝ) : jmin posInf (finite y) = finite y := rfl

@[simp] theorem jmin_negInf_finite (y : ℝ) : jmin negInf (finite y) = negInf := rfl

@[simp] theorem jadd_finite_finite (x y : ℝ) : jadd (finite x) (finite y) = finite (x + y) := rfl

@[simp] theorem jadd_finite_nan (x : ℝ) : jadd (finite x) nan = nan := rfl

@[simp] theorem jadd_finite_posInf (x : ℝ) : jadd (finite x) posInf = posInf := rfl

@[simp] theorem jadd_finite_negInf (x : ℝ) : jadd (finite x) negInf = negInf := rfl

@[simp] theorem jsub_finite_finite (x y : ℝ) : jsub (finite x) (finite y) = finite (x - y) := rfl

@[simp] theorem jsub_finite_nan (x : ℝ) : jsub (finite x) nan = nan := rfl

@[simp] theorem jsub_finite_posInf (x : ℝ) : jsub (finite x) posInf = negInf := rfl

@[simp] theorem jsub_finite_negInf (x : ℝ) : jsub (finite x) negInf = posInf := rfl

@[simp] theorem jdiv_nan_left (b : JSNum) : jdiv nan b = nan := by cases b <;> rfl

@[simp] theorem jdiv_finite_finite_of_ne (x y : ℝ) (hy : y ≠ 0) :
    jdiv (finite x) (finite y) = finite (x / y) := by
  simp [jdiv, hy]

@[simp] theorem jsin_finite (x : ℝ) : jsin (finite x) = finite (Real.sin x) := rfl

@[simp] theorem jsin_nan : jsin nan = nan := rfl

@[simp] theorem jsin_posInf : jsin posInf = nan := rfl

@[simp] theorem jcos_finite (x : ℝ) : jcos (finite x) = finite (Real.cos x) := rfl

@[simp] theorem jasin_nan : jasin nan = nan := rfl

theorem jasin_finite_of_mem (x : ℝ) (h1 : -1 ≤ x) (h2 : x ≤ 1) :
    jasin (finite x) = finite (Real.arcsin x) := by
  have h : ¬ (x < -1 ∨ 1 < x) := by rintro (h | h) <;> linarith
  simp [jasin, h]

end JSNum

@[simp] theorem toDegreesNum_finite (x : ℝ) : toDegreesNum (JSNum.finite x) = JSNum.finite (toDegrees x) := rfl

@[simp] theorem toDegreesNum_nan : toDegreesNum JSNum.nan = JSNum.nan := rfl

@[simp] theorem toDegreesNum_posInf : toDegreesNum JSNum.posInf = JSNum.posInf := rfl

@[simp] theorem toDegreesNum_negInf : toDegreesNum JSNum.negInf = JSNum.negInf := rfl

@[simp] theorem isLatitudeInRange_finite (x : ℝ) :
    isLatitudeInRange (JSNum.finite x) ↔ -90 ≤ x ∧ x ≤ 90 := by
  simp [isLatitudeInRange, MIN_LATITUDE, MAX_LATITUDE]

@[simp] theorem isLongitudeInRange_finite (x : ℝ) :
    isLongitudeInRange (JSNum.finite x) ↔ -180 ≤ x ∧ x ≤ 180 := by
  simp [isLongitudeInRange, MIN_LONGITUDE, MAX_LONGITUDE]

@[simp] theorem isLatitudeInRange_nan : ¬ isLatitudeInRange JSNum.nan := by
  simp [isLatitudeInRange]

@[simp] theorem isLatitudeInRange_posInf : ¬ isLatitudeInRange JSNum.posInf := by
  simp [isLatitudeInRange]

@[simp] theorem isLatitudeInRange_negInf : ¬ isLatitudeInRange JSNum.negInf := by
  simp [isLatitudeInRange]

@[simp] theorem isLongitudeInRange_nan : ¬ isLongitudeInRange JSNum.nan := by
  simp [isLongitudeInRange]

/-! ### General evaluation lemmas -/

theorem calculateHaversineDistanceKm_of_valid (origin destination : GeoCoordinate)
    (h1 : isLatitudeInRange origin.latitude) (h2 : isLatitudeInRange destination.latitude)
    (h3 : isLongitudeInRange origin.longitude) (h4 : isLongitudeInRange destination.longitude) :
    calculateHaversineDistanceKm origin destination =
      JSNum.finite (haversineKmReal origin.latitude.toReal origin.longitude.toReal
        destination.latitude.toReal destination.longitude.toReal) := by
  have hgate : ¬ (¬ isLatitudeInRange origin.latitude ∨ ¬ isLatitudeInRange destination.latitude ∨
      ¬ isLongitudeInRange origin.longitude ∨ ¬ isLongitudeInRange destination.longitude) := by
    push_neg
    exact ⟨h1, h2, h3, h4⟩
  unfold calculateHaversineDistanceKm
  rw [if_neg hgate]

theorem computeBoundingBox_of_valid (center : GeoCoordinate) (radiusKm : JSNum)
    (h1 : isLatitudeInRange center.latitude) (h2 : isLongitudeInRange center.longitude) :
    computeBoundingBox center radiusKm =
      if poleCondition center radiusKm then
        { minLatitude := minLatitudeOf center radiusKm
          maxLatitude := maxLatitudeOf center radiusKm
          minLongitude := JSNum.finite MIN_LONGITUDE
          maxLongitude := JSNum.finite MAX_LONGITUDE }
      else
        { minLatitude := minLatitudeOf center radiusKm
          maxLatitude := maxLatitudeOf center radiusKm
          minLongitude := minLongitudeOf center radiusKm
          maxLongitude := maxLongitudeOf center radiusKm } := by
  have hgate : ¬ (¬ isLatitudeInRange center.latitude ∨ ¬ isLongitudeInRange center.longitude) := by
    push_neg
    exact ⟨h1, h2⟩
  unfold computeBoundingBox
  rw [if_neg hgate]

theorem atan2_nonneg (y x : ℝ) (hy : 0 ≤ y) : 0 ≤ atan2 y x := by
  unfold atan2
  split_ifs with h1 h2 h3 h4
  · simpa using Real.arctan_strictMono.monotone (div_nonneg hy h1.le)
  all_goals
    linarith [Real.pi_pos, Real.neg_pi_div_two_lt_arctan (y / x)]

theorem haversineKmReal_symm (lat1 lon1 lat2 lon2 : ℝ) :
    haversineKmReal lat1 lon1 lat2 lon2 = haversineKmReal lat2 lon2 lat1 lon1 := by
  have key : ∀ u v : ℝ,
      Real.sin (toRadians (u - v) / 2) ^ 2 = Real.sin (toRadians (v - u) / 2) ^ 2 := by
    intro u v
    have h : toRadians (u - v) / 2 = -(toRadians (v - u) / 2) := by
      simp only [toRadians]; ring
    rw [h, Real.sin_neg, neg_sq]
  simp only [haversineKmReal]
  have ha : Real.sin (toRadians (lat2 - lat1) / 2) ^ 2 +
      Real.sin (toRadians (lon2 - lon1) / 2) ^ 2 * Real.cos (toRadians lat1) *
        Real.cos (toRadians lat2) =
      Real.sin (toRadians (lat1 - lat2) / 2) ^ 2 +
      Real.sin (toRadians (lon1 - lon2) / 2) ^ 2 * Real.cos (toRadians lat2) *
        Real.cos (toRadians lat1) := by
    rw [key lat2 lat1, key lon2 lon1]; ring
  rw [ha]

theorem haversineKmReal_self (lat lon : ℝ) : haversineKmReal lat lon lat lon = 0 := by
  simp only [haversineKmReal, sub_self]
  norm_num [toRadians, atan2, Real.sqrt_one]

theorem haversineKmReal_nonneg (lat1 lon1 lat2 lon2 : ℝ) :
    0 ≤ haversineKmReal lat1 lon1 lat2 lon2 := by
  simp only [haversineKmReal]
  apply mul_nonneg
  · norm_num [EARTH_RADIUS_KM]
  · apply mul_nonneg (by norm_num)
    exact atan2_nonneg _ _ (Real.sqrt_nonneg _)

/-! ### Claim C4 -/

/-- C4: `calculateHaversineDistanceKm` returns the `NaN` sentinel exactly
when at least one of the four input numbers is non-finite or outside its
canonical range; on every other input it returns a finite number, and the
function is total (never throws) by construction. -/
theorem haversine_nan_iff_invalid_input (origin destination : GeoCoordinate) :
    calculateHaversineDistanceKm origin destination = JSNum.nan ↔
      (¬ isLatitudeInRange origin.latitude ∨ ¬ isLatitudeInRange destination.latitude ∨
        ¬ isLongitudeInRange origin.longitude ∨ ¬ isLongitudeInRange destination.longitude) := by
  unfold calculateHaversineDistanceKm
  split_ifs with h
  · simp [h]
  · simp [h]

/-! ### Claim C5 -/

/-- C5: for every center whose latitude or longitude is out of canonical
range (or non-finite) and every radius, `computeBoundingBox` returns
exactly the whole-globe box; the function is total by construction. -/
theorem boundingBox_invalid_center_maximal (center : GeoCoordinate) (radiusKm : JSNum)
    (h : ¬ isLatitudeInRange center.latitude ∨ ¬ isLongitudeInRange center.longitude) :
    computeBoundingBox center radiusKm =
      { minLatitude := JSNum.finite (-90), maxLatitude := JSNum.finite 90,
        minLongitude := JSNum.finite (-180), maxLongitude := JSNum.finite 180 } := by
  unfold computeBoundingBox
  rw [if_pos h]
  simp only [MIN_LATITUDE, MAX_LATITUDE, MIN_LONGITUDE, MAX_LONGITUDE]

/-- Witness for C5 at the concrete invalid center (120, 0) with `NaN`
radius. -/
theorem boundingBox_invalid_center_maximal_witness :
    (¬ isLatitudeInRange (JSNum.finite 120) ∨ ¬ isLongitudeInRange (JSNum.finite 0)) ∧
      computeBoundingBox ⟨JSNum.finite 120, JSNum.finite 0⟩ JSNum.nan =
        { minLatitude := JSNum.finite (-90), maxLatitude := JSNum.finite 90,
          minLongitude := JSNum.finite (-180), maxLongitude := JSNum.finite 180 } :=
  have h : ¬ isLatitudeInRange (JSNum.finite 120) ∨ ¬ isLongitudeInRange (JSNum.finite 0) :=
    Or.inl (by norm_num)
  ⟨h, boundingBox_invalid_center_maximal _ _ h⟩

/-! ### Claim C7 -/

/-- C7: the haversine distance is symmetric in its two coordinates on the
valid domain. -/
theorem haversine_symm (A B : GeoCoordinate)
    (hA1 : isLatitudeInRange A.latitude) (hA2 : isLongitudeInRange A.longitude)
    (hB1 : isLatitudeInRange B.latitude) (hB2 : isLongitudeInRange B.longitude) :
    calculateHaversineDistanceKm A B = calculateHaversineDistanceKm B A := by
  rw [calculateHaversineDistanceKm_of_valid A B hA1 hB1 hA2 hB2,
    calculateHaversineDistanceKm_of_valid B A hB1 hA1 hB2 hA2, haversineKmReal_symm]

/-- Witness for C7 at the concrete valid coordinates (10, 20) and
(-30, 40). -/
theorem haversine_symm_witness :
    isLatitudeInRange (JSNum.finite 10) ∧ isLongitudeInRange (JSNum.finite 20) ∧
      isLatitudeInRange (JSNum.finite (-30)) ∧ isLongitudeInRange (JSNum.finite 40) ∧
      calculateHaversineDistanceKm ⟨JSNum.finite 10, JSNum.finite 20⟩
          ⟨JSNum.finite (-30), JSNum.finite 40⟩ =
        calculateHaversineDistanceKm ⟨JSNum.finite (-30), JSNum.finite 40⟩
          ⟨JSNum.finite 10, JSNum.finite 20⟩ :=
  ⟨by norm_num, by norm_num, by norm_num, by norm_num,
    haversine_symm _ _ (by norm_num) (by norm_num) (by norm_num) (by norm_num)⟩

/-! ### Claim C8 -/

/-- C8: the haversine distance from a valid coordinate to itself is
exactly zero. -/
theorem haversine_self_eq_zero (P : GeoCoordinate)
    (h1 : isLatitudeInRange P.latitude) (h2 : isLongitudeInRange P.longitude) :
    calculateHaversineDistanceKm P P = JSNum.finite 0 := by
  rw [calculateHaversineDistanceKm_of_valid P P h1 h1 h2 h2, haversineKmReal_self]

/-- Witness for C8 at the concrete valid coordinate (45, 120). -/
theorem haversine_self_eq_zero_witness :
    isLatitudeInRange (JSNum.finite 45) ∧ isLongitudeInRange (JSNum.finite 120) ∧
      calculateHaversineDistanceKm ⟨JSNum.finite 45, JSNum.finite 120⟩
        ⟨JSNum.finite 45, JSNum.finite 120⟩ = JSNum.finite 0 :=
  ⟨by norm_num, by norm_num, haversine_self_eq_zero _ (by norm_num) (by norm_num)⟩

/-! ### Claim C9 -/

/-- C9: on the valid domain the haversine distance is a finite,
non-negative real number (never the `NaN` sentinel, never infinite). -/
theorem haversine_valid_nonneg_finite (A B : GeoCoordinate)
    (hA1 : isLatitudeInRange A.latitude) (hA2 : isLongitudeInRange A.longitude)
    (hB1 : isLatitudeInRange B.latitude) (hB2 : isLongitudeInRange B.longitude) :
    ∃ r : ℝ, calculateHaversineDistanceKm A B = JSNum.finite r ∧ 0 ≤ r :=
  ⟨_, calculateHaversineDistanceKm_of_valid A B hA1 hB1 hA2 hB2,
    haversineKmReal_nonneg _ _ _ _⟩

/-- Witness for C9 at the concrete valid coordinates (51, 0) and
(40, -74). -/
theorem haversine_valid_nonneg_finite_witness :
    isLatitudeInRange (JSNum.finite 51) ∧ isLongitudeInRange (JSNum.finite 0) ∧
      isLatitudeInRange (JSNum.finite 40) ∧ isLongitudeInRange (JSNum.finite (-74)) ∧
      ∃ r : ℝ, calculateHaversineDistanceKm ⟨JSNum.finite 51, JSNum.finite 0⟩
          ⟨JSNum.finite 40, JSNum.finite (-74)⟩ = JSNum.finite r ∧ 0 ≤ r :=
  ⟨by norm_num, by norm_num, by norm_num, by norm_num,
    haversine_valid_nonneg_finite _ _ (by norm_num) (by norm_num) (by norm_num) (by norm_num)⟩

/-! ### Degree/radian conversion lemmas -/

theorem toDegrees_toRadians (x : ℝ) : toDegrees (toRadians x) = x := by
  unfold toDegrees toRadians
  field_simp

theorem toDegrees_sub (a b : ℝ) : toDegrees (a - b) = toDegrees a - toDegrees b := by
  unfold toDegrees
  ring

theorem toDegrees_add (a b : ℝ) : toDegrees (a + b) = toDegrees a + toDegrees b := by
  unfold toDegrees
  ring

theorem toDegrees_lt_iff (y c : ℝ) : toDegrees y < c ↔ y < toRadians c := by
  unfold toDegrees toRadians
  rw [div_lt_iff Real.pi_pos, lt_div_iff (by norm_num : (0:ℝ) < 180)]

theorem lt_toDegrees_iff (c y : ℝ) : c < toDegrees y ↔ toRadians c < y := by
  unfold toDegrees toRadians
  rw [lt_div_iff Real.pi_pos, div_lt_iff (by norm_num : (0:ℝ) < 180)]

theorem toDegrees_le_iff (y c : ℝ) : toDegrees y ≤ c ↔ y ≤ toRadians c := by
  unfold toDegrees toRadians
  rw [div_le_iff Real.pi_pos, le_div_iff (by norm_num : (0:ℝ) < 180)]

theorem le_toDegrees_iff (c y : ℝ) : c ≤ toDegrees y ↔ toRadians c ≤ y := by
  unfold toDegrees toRadians
  rw [le_div_iff Real.pi_pos, div_le_iff (by norm_num : (0:ℝ) < 180)]

theorem toDegrees_pos (y : ℝ) (hy : 0 < y) : 0 < toDegrees y := by
  unfold toDegrees
  positivity

theorem toDegrees_mono (a b : ℝ) (h : a ≤ b) : toDegrees a ≤ toDegrees b := by
  unfold toDegrees
  rw [div_le_div_iff_of_pos_right Real.pi_pos]
  nlinarith

theorem toRadians_lt_toRadians (a b : ℝ) (h : a < b) : toRadians a < toRadians b := by
  unfold toRadians
  have := Real.pi_pos
  rw [div_lt_div_iff (by norm_num) (by norm_num)]
  nlinarith

theorem toRadians_le_toRadians (a b : ℝ) (h : a ≤ b) : toRadians a ≤ toRadians b := by
  unfold toRadians
  have := Real.pi_pos
  rw [div_le_div_iff (by norm_num) (by norm_num)]
  nlinarith

/-! ### Bounding-box evaluation lemmas for a finite safe radius -/

theorem safeRadiusKm_cases (r : JSNum) :
    (∃ s : ℝ, safeRadiusKm r = JSNum.finite s ∧ 0.1 ≤ s ∧ jle r (JSNum.finite s)) ∨
      safeRadiusKm r = JSNum.posInf ∨ (r = JSNum.nan ∧ safeRadiusKm r = JSNum.nan) := by
  cases r with
  | finite x =>
      exact Or.inl ⟨max x 0.1, by simp [safeRadiusKm], le_max_right _ _, by simp⟩
  | nan => exact Or.inr (Or.inr ⟨rfl, by simp [safeRadiusKm]⟩)
  | posInf => exact Or.inr (Or.inl (by simp [safeRadiusKm]))
  | negInf =>
      exact Or.inl ⟨0.1, by simp [safeRadiusKm], le_refl _, by simp⟩

theorem angularDistance_of_safe (r : JSNum) (s : ℝ) (hs : safeRadiusKm r = JSNum.finite s) :
    angularDistance r = JSNum.finite (s / EARTH_RADIUS_KM) := by
  unfold angularDistance
  rw [hs, jdiv_finite_finite_of_ne _ _ (by norm_num [EARTH_RADIUS_KM])]

theorem minLatitudeOf_of_safe (c : GeoCoordinate) (r : JSNum) (s : ℝ)
    (hs : safeRadiusKm r = JSNum.finite s) :
    minLatitudeOf c r =
      JSNum.finite (min (max (toDegrees (latRad c - s / EARTH_RADIUS_KM)) (-90)) 90) := by
  unfold minLatitudeOf clampLatitude
  rw [angularDistance_of_safe r s hs]
  simp [MIN_LATITUDE, MAX_LATITUDE]

theorem maxLatitudeOf_of_safe (c : GeoCoordinate) (r : JSNum) (s : ℝ)
    (hs : safeRadiusKm r = JSNum.finite s) :
    maxLatitudeOf c r =
      JSNum.finite (min (max (toDegrees (latRad c + s / EARTH_RADIUS_KM)) (-90)) 90) := by
  unfold maxLatitudeOf clampLatitude
  rw [angularDistance_of_safe r s hs]
  simp [MIN_LATITUDE, MAX_LATITUDE]

theorem angularDistance_posInf : angularDistance JSNum.posInf = JSNum.posInf := by
  unfold angularDistance safeRadiusKm
  simp [jdiv, jmax, EARTH_RADIUS_KM]

theorem minLatitudeOf_posInf (c : GeoCoordinate) :
    minLatitudeOf c JSNum.posInf = JSNum.finite (-90) := by
  unfold minLatitudeOf clampLatitude
  rw [angularDistance_posInf]
  simp [MIN_LATITUDE, MAX_LATITUDE]

theorem maxLatitudeOf_posInf (c : GeoCoordinate) :
    maxLatitudeOf c JSNum.posInf = JSNum.finite 90 := by
  unfold maxLatitudeOf clampLatitude
  rw [angularDistance_posInf]
  simp [MIN_LATITUDE, MAX_LATITUDE]

theorem poleCondition_posInf (c : GeoCoordinate) : poleCondition c JSNum.posInf := by
  unfold poleCondition
  rw [minLatitudeOf_posInf]
  left
  simp [MIN_LATITUDE]

/-! ### Claim C6 -/

/-- C6: for a valid center, whenever the clamped minimum latitude is
exactly -90 or the clamped maximum latitude is exactly 90, the box is the
clamped latitude extremes paired with the full longitude span. -/
theorem boundingBox_pole_rule (center : GeoCoordinate) (radiusKm : JSNum)
    (h1 : isLatitudeInRange center.latitude) (h2 : isLongitudeInRange center.longitude)
    (h : minLatitudeOf center radiusKm = JSNum.finite (-90) ∨
      maxLatitudeOf center radiusKm = JSNum.finite 90) :
    computeBoundingBox center radiusKm =
      { minLatitude := minLatitudeOf center radiusKm
        maxLatitude := maxLatitudeOf center radiusKm
        minLongitude := JSNum.finite (-180)
        maxLongitude := JSNum.finite 180 } := by
  have hpole : poleCondition center radiusKm := by
    unfold poleCondition
    rcases h with h | h
    · left
      rw [h]
      simp [MIN_LATITUDE]
    · right
      rw [h]
      simp [MAX_LATITUDE]
  rw [computeBoundingBox_of_valid center radiusKm h1 h2, if_pos hpole]
  simp only [MIN_LONGITUDE, MAX_LONGITUDE]

/-- Witness for C6 at center (89.5, 45) with radius 100 km: the max
latitude clamps to exactly 90 and the box gets the full longitude span. -/
theorem boundingBox_pole_rule_witness :
    maxLatitudeOf ⟨JSNum.finite 89.5, JSNum.finite 45⟩ (JSNum.finite 100) = JSNum.finite 90 ∧
      computeBoundingBox ⟨JSNum.finite 89.5, JSNum.finite 45⟩ (JSNum.finite 100) =
        { minLatitude := minLatitudeOf ⟨JSNum.finite 89.5, JSNum.finite 45⟩ (JSNum.finite 100)
          maxLatitude := maxLatitudeOf ⟨JSNum.finite 89.5, JSNum.finite 45⟩ (JSNum.finite 100)
          minLongitude := JSNum.finite (-180)
          maxLongitude := JSNum.finite 180 } := by
  have hs : safeRadiusKm (JSNum.finite 100) = JSNum.finite 100 := by
    unfold safeRadiusKm
    rw [jmax_finite_finite]
    norm_num
  have hmax : maxLatitudeOf ⟨JSNum.finite 89.5, JSNum.finite 45⟩ (JSNum.finite 100) =
      JSNum.finite 90 := by
    rw [maxLatitudeOf_of_safe _ _ _ hs]
    have hv : (90:ℝ) ≤ toDegrees (latRad ⟨JSNum.finite 89.5, JSNum.finite 45⟩ +
        100 / EARTH_RADIUS_KM) := by
      rw [le_toDegrees_iff]
      unfold latRad toRadians EARTH_RADIUS_KM
      simp only [toReal_finite]
      nlinarith [Real.pi_lt_d2, Real.pi_gt_three]
    rw [max_eq_left (by linarith), min_eq_right hv]
  exact ⟨hmax, boundingBox_pole_rule _ _ (by norm_num) (by norm_num) (Or.inr hmax)⟩

/-! ### Normal-branch analysis -/

theorem toRadians_neg_ninety : toRadians (-90) = -(π / 2) := by
  unfold toRadians
  ring

theorem toRadians_ninety : toRadians 90 = π / 2 := by
  unfold toRadians
  ring

theorem isLatitudeInRange_elim (v : JSNum) (h : isLatitudeInRange v) :
    ∃ x : ℝ, v = JSNum.finite x ∧ -90 ≤ x ∧ x ≤ 90 := by
  cases v with
  | finite x =>
      have hx : -90 ≤ x ∧ x ≤ 90 := by simpa using h
      exact ⟨x, rfl, hx.1, hx.2⟩
  | nan => exact absurd h (by simp)
  | posInf => exact absurd h (by simp)
  | negInf => exact absurd h (by simp)

theorem isLongitudeInRange_elim (v : JSNum) (h : isLongitudeInRange v) :
    ∃ x : ℝ, v = JSNum.finite x ∧ -180 ≤ x ∧ x ≤ 180 := by
  cases v with
  | finite x =>
      have hx : -180 ≤ x ∧ x ≤ 180 := by simpa using h
      exact ⟨x, rfl, hx.1, hx.2⟩
  | nan => exact absurd h (by simp [isLongitudeInRange])
  | posInf => exact absurd h (by simp [isLongitudeInRange])
  | negInf => exact absurd h (by simp [isLongitudeInRange])

theorem notPole_radian_bounds (c : GeoCoordinate) (r : JSNum) (s : ℝ)
    (hs : safeRadiusKm r = JSNum.finite s)
    (hnp : ¬ poleCondition c r) :
    -(π / 2) < latRad c - s / EARTH_RADIUS_KM ∧ latRad c + s / EARTH_RADIUS_KM < π / 2 := by
  unfold poleCondition at hnp
  push_neg at hnp
  obtain ⟨h1, h2⟩ := hnp
  rw [minLatitudeOf_of_safe c r s hs] at h1
  rw [maxLatitudeOf_of_safe c r s hs] at h2
  simp only [MIN_LATITUDE, MAX_LATITUDE, jle_finite_finite] at h1 h2
  constructor
  · have hv : -90 < toDegrees (latRad c - s / EARTH_RADIUS_KM) := by
      by_contra hle
      push_neg at hle
      exact h1 (by rw [max_eq_right hle, min_eq_left (by norm_num)])
    rw [lt_toDegrees_iff, toRadians_neg_ninety] at hv
    linarith
  · have hw : toDegrees (latRad c + s / EARTH_RADIUS_KM) < 90 := by
      by_contra hge
      push_neg at hge
      exact h2 (le_of_eq (min_eq_right (le_trans hge (le_max_left _ _))).symm)
    rw [toDegrees_lt_iff, toRadians_ninety] at hw
    linarith

theorem sin_ang_lt_cos_of_bounds (x ang : ℝ) (hang : 0 < ang)
    (h1 : -(π / 2) < x - ang) (h2 : x + ang < π / 2) :
    0 < Real.sin ang ∧ Real.sin ang < Real.cos x := by
  have hpi := Real.pi_pos
  have hangp2 : ang < π / 2 := by linarith
  have hsinpos : 0 < Real.sin ang := Real.sin_pos_of_pos_of_lt_pi hang (by linarith)
  have habs : |x| < π / 2 - ang := abs_lt.mpr ⟨by linarith, by linarith⟩
  have hcos : Real.cos (π / 2 - ang) < Real.cos |x| := by
    refine Real.strictAntiOn_cos ⟨abs_nonneg x, by linarith⟩ ⟨by linarith, by linarith⟩ habs
  rw [Real.cos_pi_div_two_sub, Real.cos_abs] at hcos
  exact ⟨hsinpos, hcos⟩

theorem deltaLongitude_eval (c : GeoCoordinate) (r : JSNum) (s : ℝ)
    (hs : safeRadiusKm r = JSNum.finite s)
    (hsin : 0 < Real.sin (s / EARTH_RADIUS_KM))
    (hlt : Real.sin (s / EARTH_RADIUS_KM) < Real.cos (latRad c)) :
    deltaLongitude c r =
      JSNum.finite (Real.arcsin (Real.sin (s / EARTH_RADIUS_KM) / Real.cos (latRad c))) ∧
      0 < Real.arcsin (Real.sin (s / EARTH_RADIUS_KM) / Real.cos (latRad c)) ∧
      Real.arcsin (Real.sin (s / EARTH_RADIUS_KM) / Real.cos (latRad c)) ≤ π / 2 := by
  have hcos : 0 < Real.cos (latRad c) := lt_trans hsin hlt
  have hq1 : Real.sin (s / EARTH_RADIUS_KM) / Real.cos (latRad c) < 1 :=
    (div_lt_one hcos).mpr hlt
  have hq0 : 0 < Real.sin (s / EARTH_RADIUS_KM) / Real.cos (latRad c) := div_pos hsin hcos
  refine ⟨?_, Real.arcsin_pos.mpr hq0, Real.arcsin_le_pi_div_two _⟩
  unfold deltaLongitude
  rw [angularDistance_of_safe r s hs, jsin_finite, jcos_finite,
    jdiv_finite_finite_of_ne _ _ (ne_of_gt hcos)]
  exact jasin_finite_of_mem _ (by linarith) (le_of_lt hq1)

/-! ### Claim C10 -/

/-- C10 (implicit): for every valid center and every radius other than
`NaN` (finite of any sign, or infinite), the returned box contains the
center itself; the radius floor to 0.1 km makes this hold for zero and
negative radii as well. -/
theorem boundingBox_contains_center (center : GeoCoordinate) (radiusKm : JSNum)
    (h1 : isLatitudeInRange center.latitude) (h2 : isLongitudeInRange center.longitude)
    (hr : radiusKm ≠ JSNum.nan) :
    inBox (computeBoundingBox center radiusKm) center := by
  obtain ⟨lat, hlat, hlatlo, hlathi⟩ := isLatitudeInRange_elim _ h1
  obtain ⟨lng, hlng, hlnglo, hlnghi⟩ := isLongitudeInRange_elim _ h2
  rcases safeRadiusKm_cases radiusKm with ⟨s, hs, hs01, _⟩ | hsp | ⟨hnan, _⟩
  · -- finite safe radius s ≥ 0.1
    have hang : 0 < s / EARTH_RADIUS_KM := by
      unfold EARTH_RADIUS_KM
      have : (0:ℝ) < s := by linarith
      positivity
    have hlatr : latRad center = toRadians lat := by
      unfold latRad
      rw [hlat, toReal_finite]
    have hlngr : lonRad center = toRadians lng := by
      unfold lonRad
      rw [hlng, toReal_finite]
    have hAdeg : 0 < toDegrees (s / EARTH_RADIUS_KM) := toDegrees_pos _ hang
    have hminlat : min (max (toDegrees (latRad center - s / EARTH_RADIUS_KM)) (-90)) 90 ≤ lat := by
      have hv : toDegrees (latRad center - s / EARTH_RADIUS_KM) ≤ lat := by
        rw [hlatr, toDegrees_sub, toDegrees_toRadians]
        linarith
      exact le_trans (min_le_left _ _) (max_le hv (by linarith))
    have hmaxlat : lat ≤ min (max (toDegrees (latRad center + s / EARTH_RADIUS_KM)) (-90)) 90 := by
      have hv : lat ≤ toDegrees (latRad center + s / EARTH_RADIUS_KM) := by
        rw [hlatr, toDegrees_add, toDegrees_toRadians]
        linarith
      exact le_min (le_trans hv (le_max_left _ _)) hlathi
    by_cases hpole : poleCondition center radiusKm
    · rw [computeBoundingBox_of_valid _ _ h1 h2, if_pos hpole]
      unfold inBox
      simp only [MIN_LONGITUDE, MAX_LONGITUDE]
      rw [minLatitudeOf_of_safe _ _ _ hs, maxLatitudeOf_of_safe _ _ _ hs, hlat, hlng]
      simp only [jle_finite_finite]
      exact ⟨hminlat, hmaxlat, by linarith, by linarith⟩
    · rw [computeBoundingBox_of_valid _ _ h1 h2, if_neg hpole]
      obtain ⟨hb1, hb2⟩ := notPole_radian_bounds center radiusKm s hs hpole
      obtain ⟨hsin, hlt⟩ := sin_ang_lt_cos_of_bounds (latRad center) (s / EARTH_RADIUS_KM)
        hang hb1 hb2
      obtain ⟨hdeq, hdpos, hdle⟩ := deltaLongitude_eval center radiusKm s hs hsin hlt
      have hDdeg : 0 < toDegrees (Real.arcsin
          (Real.sin (s / EARTH_RADIUS_KM) / Real.cos (latRad center))) :=
        toDegrees_pos _ hdpos
      unfold inBox minLongitudeOf maxLongitudeOf clampLongitude
      rw [hdeq]
      simp only [jsub_finite_finite, jadd_finite_finite, toDegreesNum_finite,
        jmax_finite_finite, jmin_finite_finite, MIN_LONGITUDE, MAX_LONGITUDE]
      rw [minLatitudeOf_of_safe _ _ _ hs, maxLatitudeOf_of_safe _ _ _ hs, hlat, hlng]
      simp only [jle_finite_finite]
      refine ⟨hminlat, hmaxlat, ?_, ?_⟩
      · have hv : toDegrees (lonRad center - Real.arcsin
            (Real.sin (s / EARTH_RADIUS_KM) / Real.cos (latRad center))) ≤ lng := by
          rw [toDegrees_sub, hlngr, toDegrees_toRadians]
          linarith
        exact le_trans (min_le_left _ _) (max_le hv (by linarith))
      · have hv : lng ≤ toDegrees (lonRad center + Real.arcsin
            (Real.sin (s / EARTH_RADIUS_KM) / Real.cos (latRad center))) := by
          rw [toDegrees_add, hlngr, toDegrees_toRadians]
          linarith
        exact le_min (le_trans hv (le_max_left _ _)) hlnghi
  · -- infinite safe radius: pole branch with the maximal latitudes
    have hrp : radiusKm = JSNum.posInf := by
      cases radiusKm with
      | finite x => exact absurd hsp (by simp [safeRadiusKm])
      | nan => exact absurd rfl hr
      | posInf => rfl
      | negInf => exact absurd hsp (by simp [safeRadiusKm])
    subst hrp
    rw [computeBoundingBox_of_valid _ _ h1 h2, if_pos (poleCondition_posInf center)]
    unfold inBox
    rw [minLatitudeOf_posInf, maxLatitudeOf_posInf]
    simp only [MIN_LONGITUDE, MAX_LONGITUDE]
    rw [hlat, hlng]
    simp only [jle_finite_finite]
    exact ⟨by linarith, by linarith, by linarith, by linarith⟩
  · exact absurd hnan hr

/-- Witness for C10 at the valid center (37.5665, 126.978) with radius
25 km. -/
theorem boundingBox_contains_center_witness :
    isLatitudeInRange (JSNum.finite 37.5665) ∧ isLongitudeInRange (JSNum.finite 126.978) ∧
      (JSNum.finite 25 ≠ JSNum.nan) ∧
      inBox (computeBoundingBox ⟨JSNum.finite 37.5665, JSNum.finite 126.978⟩ (JSNum.finite 25))
        ⟨JSNum.finite 37.5665, JSNum.finite 126.978⟩ :=
  ⟨by norm_num, by norm_num, by simp,
    boundingBox_contains_center _ _ (by norm_num) (by norm_num) (by simp)⟩

/-! ### NaN-radius evaluation -/

theorem safeRadiusKm_nan : safeRadiusKm JSNum.nan = JSNum.nan := by
  simp [safeRadiusKm]

theorem angularDistance_nan : angularDistance JSNum.nan = JSNum.nan := by
  unfold angularDistance
  rw [safeRadiusKm_nan]
  simp

theorem minLatitudeOf_nan (c : GeoCoordinate) : minLatitudeOf c JSNum.nan = JSNum.nan := by
  unfold minLatitudeOf clampLatitude
  rw [angularDistance_nan]
  simp

theorem maxLatitudeOf_nan (c : GeoCoordinate) : maxLatitudeOf c JSNum.nan = JSNum.nan := by
  unfold maxLatitudeOf clampLatitude
  rw [angularDistance_nan]
  simp

theorem poleCondition_nan (c : GeoCoordinate) : ¬ poleCondition c JSNum.nan := by
  unfold poleCondition
  rw [minLatitudeOf_nan, maxLatitudeOf_nan]
  simp

theorem minLongitudeOf_nan (c : GeoCoordinate) : minLongitudeOf c JSNum.nan = JSNum.nan := by
  unfold minLongitudeOf clampLongitude deltaLongitude
  rw [angularDistance_nan]
  simp

theorem maxLongitudeOf_nan (c : GeoCoordinate) : maxLongitudeOf c JSNum.nan = JSNum.nan := by
  unfold maxLongitudeOf clampLongitude deltaLongitude
  rw [angularDistance_nan]
  simp

/-! ### Claim C3 -/

/-- C3 counterexample: at the valid center (0, 0) with radius `NaN`, all
four bounds of the returned box are `NaN`, so the claimed invariant
minLatitude <= maxLatitude fails (a JS comparison with `NaN` is false). -/
theorem boundingBox_wellFormed_counterexample :
    isLatitudeInRange (JSNum.finite 0) ∧ isLongitudeInRange (JSNum.finite 0) ∧
      ¬ jle (computeBoundingBox ⟨JSNum.finite 0, JSNum.finite 0⟩ JSNum.nan).minLatitude
          (computeBoundingBox ⟨JSNum.finite 0, JSNum.finite 0⟩ JSNum.nan).maxLatitude := by
  refine ⟨by norm_num, by norm_num, ?_⟩
  rw [computeBoundingBox_of_valid _ _ (by norm_num) (by norm_num),
    if_neg (poleCondition_nan _)]
  simp [minLatitudeOf_nan, maxLatitudeOf_nan]

/-- C3 amended: for every center and every radius that is not `NaN`, the
four bounds of the returned box are finite reals with
minLatitude <= maxLatitude, minLongitude <= maxLongitude, latitudes in
[-90, 90] and longitudes in [-180, 180]. -/
theorem boundingBox_wellFormed (center : GeoCoordinate) (radiusKm : JSNum)
    (hr : radiusKm ≠ JSNum.nan) :
    ∃ a b c d : ℝ,
      computeBoundingBox center radiusKm =
        { minLatitude := JSNum.finite a, maxLatitude := JSNum.finite b,
          minLongitude := JSNum.finite c, maxLongitude := JSNum.finite d } ∧
      a ≤ b ∧ c ≤ d ∧ -90 ≤ a ∧ a ≤ 90 ∧ -90 ≤ b ∧ b ≤ 90 ∧
      -180 ≤ c ∧ c ≤ 180 ∧ -180 ≤ d ∧ d ≤ 180 := by
  by_cases hval : ¬ isLatitudeInRange center.latitude ∨ ¬ isLongitudeInRange center.longitude
  · refine ⟨-90, 90, -180, 180, ?_, by norm_num, by norm_num, by norm_num, by norm_num,
      by norm_num, by norm_num, by norm_num, by norm_num, by norm_num, by norm_num⟩
    unfold computeBoundingBox
    rw [if_pos hval]
    simp only [MIN_LATITUDE, MAX_LATITUDE, MIN_LONGITUDE, MAX_LONGITUDE]
  · push_neg at hval
    obtain ⟨h1, h2⟩ := hval
    rcases safeRadiusKm_cases radiusKm with ⟨s, hs, hs01, _⟩ | hsp | ⟨hnan, _⟩
    · have hang : 0 < s / EARTH_RADIUS_KM := by
        unfold EARTH_RADIUS_KM
        have : (0:ℝ) < s := by linarith
        positivity
      have hvw : toDegrees (latRad center - s / EARTH_RADIUS_KM) ≤
          toDegrees (latRad center + s / EARTH_RADIUS_KM) :=
        toDegrees_mono _ _ (by linarith)
      have hlatineq : min (max (toDegrees (latRad center - s / EARTH_RADIUS_KM)) (-90)) 90 ≤
          min (max (toDegrees (latRad center + s / EARTH_RADIUS_KM)) (-90)) 90 :=
        min_le_min (max_le_max hvw le_rfl) le_rfl
      by_cases hpole : poleCondition center radiusKm
      · refine ⟨_, _, -180, 180, ?_, hlatineq, by norm_num,
          le_min (le_max_right _ _) (by norm_num), min_le_right _ _,
          le_min (le_max_right _ _) (by norm_num), min_le_right _ _,
          by norm_num, by norm_num, by norm_num, by norm_num⟩
        rw [computeBoundingBox_of_valid _ _ h1 h2, if_pos hpole,
          minLatitudeOf_of_safe _ _ _ hs, maxLatitudeOf_of_safe _ _ _ hs]
        simp only [MIN_LONGITUDE, MAX_LONGITUDE]
      · obtain ⟨hb1, hb2⟩ := notPole_radian_bounds center radiusKm s hs hpole
        obtain ⟨hsin, hlt⟩ := sin_ang_lt_cos_of_bounds (latRad center) (s / EARTH_RADIUS_KM)
          hang hb1 hb2
        obtain ⟨hdeq, hdpos, hdle⟩ := deltaLongitude_eval center radiusKm s hs hsin hlt
        have hcd : toDegrees (lonRad center - Real.arcsin
              (Real.sin (s / EARTH_RADIUS_KM) / Real.cos (latRad center))) ≤
            toDegrees (lonRad center + Real.arcsin
              (Real.sin (s / EARTH_RADIUS_KM) / Real.cos (latRad center))) :=
          toDegrees_mono _ _ (by linarith)
        refine ⟨_, _, _, _, ?_, hlatineq,
          min_le_min (max_le_max hcd le_rfl) le_rfl,
          le_min (le_max_right _ _) (by norm_num), min_le_right _ _,
          le_min (le_max_right _ _) (by norm_num), min_le_right _ _,
          le_min (le_max_right _ _) (by norm_num), min_le_right _ _,
          le_min (le_max_right _ _) (by norm_num), min_le_right _ _⟩
        rw [computeBoundingBox_of_valid _ _ h1 h2, if_neg hpole,
          minLatitudeOf_of_safe _ _ _ hs, maxLatitudeOf_of_safe _ _ _ hs]
        unfold minLongitudeOf maxLongitudeOf clampLongitude
        rw [hdeq]
        simp only [jsub_finite_finite, jadd_finite_finite, toDegreesNum_finite,
          jmax_finite_finite, jmin_finite_finite, MIN_LONGITUDE, MAX_LONGITUDE]
    · have hrp : radiusKm = JSNum.posInf := by
        cases radiusKm with
        | finite x => exact absurd hsp (by simp [safeRadiusKm])
        | nan => exact absurd rfl hr
        | posInf => rfl
        | negInf => exact absurd hsp (by simp [safeRadiusKm])
      subst hrp
      refine ⟨-90, 90, -180, 180, ?_, by norm_num, by norm_num, by norm_num, by norm_num,
        by norm_num, by norm_num, by norm_num, by norm_num, by norm_num, by norm_num⟩
      rw [computeBoundingBox_of_valid _ _ h1 h2, if_pos (poleCondition_posInf center),
        minLatitudeOf_posInf, maxLatitudeOf_posInf]
      simp only [MIN_LONGITUDE, MAX_LONGITUDE]
    · exact absurd hnan hr

/-- Witness for amended C3 at center (0, 0) with radius 25 km. -/
theorem boundingBox_wellFormed_witness :
    (JSNum.finite 25 ≠ JSNum.nan) ∧
      ∃ a b c d : ℝ,
        computeBoundingBox ⟨JSNum.finite 0, JSNum.finite 0⟩ (JSNum.finite 25) =
          { minLatitude := JSNum.finite a, maxLatitude := JSNum.finite b,
            minLongitude := JSNum.finite c, maxLongitude := JSNum.finite d } ∧
        a ≤ b ∧ c ≤ d ∧ -90 ≤ a ∧ a ≤ 90 ∧ -90 ≤ b ∧ b ≤ 90 ∧
        -180 ≤ c ∧ c ≤ 180 ∧ -180 ≤ d ∧ d ≤ 180 :=
  ⟨by simp, boundingBox_wellFormed _ _ (by simp)⟩

/-! ### Concrete evaluation at center (0, 180), radius 1 km -/

theorem safeRadius_one : safeRadiusKm (JSNum.finite 1) = JSNum.finite 1 := by
  unfold safeRadiusKm
  rw [jmax_finite_finite]
  norm_num

theorem latRad_c0 : latRad ⟨JSNum.finite 0, JSNum.finite 180⟩ = 0 := by
  unfold latRad toRadians
  simp

theorem lonRad_c0 : lonRad ⟨JSNum.finite 0, JSNum.finite 180⟩ = π := by
  unfold lonRad toRadians
  simp only [toReal_finite]
  ring

theorem toDegrees_inv_earth_pos : 0 < toDegrees (1 / EARTH_RADIUS_KM) :=
  toDegrees_pos _ (by norm_num [EARTH_RADIUS_KM])

theorem toDegrees_inv_earth_lt_one : toDegrees (1 / EARTH_RADIUS_KM) < 1 := by
  rw [toDegrees_lt_iff]
  unfold toRadians EARTH_RADIUS_KM
  nlinarith [Real.pi_gt_three]

theorem poleCondition_c0_false :
    ¬ poleCondition ⟨JSNum.finite 0, JSNum.finite 180⟩ (JSNum.finite 1) := by
  unfold poleCondition
  rw [minLatitudeOf_of_safe _ _ _ safeRadius_one, maxLatitudeOf_of_safe _ _ _ safeRadius_one,
    latRad_c0]
  simp only [MIN_LATITUDE, MAX_LATITUDE, jle_finite_finite, zero_sub, zero_add]
  have ht := toDegrees_inv_earth_pos
  have ht2 := toDegrees_inv_earth_lt_one
  have hneg : toDegrees (-(1 / EARTH_RADIUS_KM)) = -toDegrees (1 / EARTH_RADIUS_KM) := by
    unfold toDegrees
    ring
  rw [hneg]
  rintro (h | h)
  · rw [max_eq_left (by linarith), min_eq_left (by linarith)] at h
    linarith
  · rw [max_eq_left (by linarith), min_eq_left (by linarith)] at h
    linarith

theorem deltaLongitude_c0 :
    deltaLongitude ⟨JSNum.finite 0, JSNum.finite 180⟩ (JSNum.finite 1) =
      JSNum.finite (1 / EARTH_RADIUS_KM) := by
  have hpi := Real.pi_gt_three
  have hsin : 0 < Real.sin (1 / EARTH_RADIUS_KM) := by
    apply Real.sin_pos_of_pos_of_lt_pi (by norm_num [EARTH_RADIUS_KM])
    unfold EARTH_RADIUS_KM
    linarith
  have hlt : Real.sin (1 / EARTH_RADIUS_KM) <
      Real.cos (latRad ⟨JSNum.finite 0, JSNum.finite 180⟩) := by
    rw [latRad_c0, Real.cos_zero]
    have := Real.sin_lt (show (0:ℝ) < 1 / EARTH_RADIUS_KM by norm_num [EARTH_RADIUS_KM])
    have h1 : (1:ℝ) / EARTH_RADIUS_KM < 1 := by norm_num [EARTH_RADIUS_KM]
    linarith
  obtain ⟨hdeq, _, _⟩ := deltaLongitude_eval ⟨JSNum.finite 0, JSNum.finite 180⟩
    (JSNum.finite 1) 1 safeRadius_one hsin hlt
  rw [hdeq, latRad_c0, Real.cos_zero, div_one,
    Real.arcsin_sin (by unfold EARTH_RADIUS_KM; linarith) (by unfold EARTH_RADIUS_KM; linarith)]

theorem minLongitudeOf_c0 :
    minLongitudeOf ⟨JSNum.finite 0, JSNum.finite 180⟩ (JSNum.finite 1) =
      JSNum.finite (180 - toDegrees (1 / EARTH_RADIUS_KM)) := by
  unfold minLongitudeOf clampLongitude
  rw [deltaLongitude_c0, lonRad_c0]
  simp only [jsub_finite_finite, toDegreesNum_finite, jmax_finite_finite, jmin_finite_finite,
    MIN_LONGITUDE, MAX_LONGITUDE]
  have hval : toDegrees (π - 1 / EARTH_RADIUS_KM) = 180 - toDegrees (1 / EARTH_RADIUS_KM) := by
    rw [toDegrees_sub]
    have hpid : toDegrees π = 180 := by
      unfold toDegrees
      field_simp
    rw [hpid]
  have ht := toDegrees_inv_earth_pos
  have ht2 := toDegrees_inv_earth_lt_one
  rw [hval, max_eq_left (by linarith), min_eq_left (by linarith)]

theorem maxLongitudeOf_c0 :
    maxLongitudeOf ⟨JSNum.finite 0, JSNum.finite 180⟩ (JSNum.finite 1) = JSNum.finite 180 := by
  unfold maxLongitudeOf clampLongitude
  rw [deltaLongitude_c0, lonRad_c0]
  simp only [jadd_finite_finite, toDegreesNum_finite, jmax_finite_finite, jmin_finite_finite,
    MIN_LONGITUDE, MAX_LONGITUDE]
  have hval : toDegrees (π + 1 / EARTH_RADIUS_KM) = 180 + toDegrees (1 / EARTH_RADIUS_KM) := by
    rw [toDegrees_add]
    have hpid : toDegrees π = 180 := by
      unfold toDegrees
      field_simp
    rw [hpid]
  have ht := toDegrees_inv_earth_pos
  rw [hval, max_eq_left (by linarith), min_eq_right (by linarith)]

theorem computeBoundingBox_c0 :
    computeBoundingBox ⟨JSNum.finite 0, JSNum.finite 180⟩ (JSNum.finite 1) =
      { minLatitude := minLatitudeOf ⟨JSNum.finite 0, JSNum.finite 180⟩ (JSNum.finite 1)
        maxLatitude := maxLatitudeOf ⟨JSNum.finite 0, JSNum.finite 180⟩ (JSNum.finite 1)
        minLongitude := JSNum.finite (180 - toDegrees (1 / EARTH_RADIUS_KM))
        maxLongitude := JSNum.finite 180 } := by
  rw [computeBoundingBox_of_valid _ _ (by norm_num) (by norm_num),
    if_neg poleCondition_c0_false, minLongitudeOf_c0, maxLongitudeOf_c0]

/-! ### Claim C2 -/

/-- C2 counterexample: at the valid center (0, 180) with radius 1 km the
search circle crosses the antimeridian (center longitude plus the
computed half-width exceeds 180), yet the returned box's minLongitude is
not -180: the box is clamped, not widened to the full longitude span. -/
theorem boundingBox_antimeridian_counterexample :
    (∃ d : ℝ,
      deltaLongitude ⟨JSNum.finite 0, JSNum.finite 180⟩ (JSNum.finite 1) = JSNum.finite d ∧
      180 < (180 : ℝ) + toDegrees d) ∧
      (computeBoundingBox ⟨JSNum.finite 0, JSNum.finite 180⟩ (JSNum.finite 1)).minLongitude ≠
        JSNum.finite (-180) := by
  constructor
  · exact ⟨1 / EARTH_RADIUS_KM, deltaLongitude_c0, by linarith [toDegrees_inv_earth_pos]⟩
  · rw [computeBoundingBox_c0]
    intro h
    have h2 : (180 : ℝ) - toDegrees (1 / EARTH_RADIUS_KM) = -180 := by
      injection h
    linarith [toDegrees_inv_earth_lt_one]

/-- C2 amended: for a valid center in the non-pole branch whose circle
crosses the antimeridian on the east while its west edge stays inside,
the longitude bounds are clamped at the antimeridian: maxLongitude is
exactly 180 and minLongitude is the unclamped west edge (center
longitude minus the computed half-width), not -180; symmetrically for a
west crossing (not repeated here). -/
theorem boundingBox_antimeridian_clamped (center : GeoCoordinate) (radiusKm : JSNum) (d : ℝ)
    (h1 : isLatitudeInRange center.latitude) (h2 : isLongitudeInRange center.longitude)
    (hpole : ¬ poleCondition center radiusKm)
    (hd : deltaLongitude center radiusKm = JSNum.finite d)
    (heast : 180 < toDegrees (lonRad center) + toDegrees d)
    (hwest : -180 < toDegrees (lonRad center) - toDegrees d) :
    (computeBoundingBox center radiusKm).maxLongitude = JSNum.finite 180 ∧
      (computeBoundingBox center radiusKm).minLongitude =
        JSNum.finite (toDegrees (lonRad center) - toDegrees d) := by
  obtain ⟨lng, hlng, hlnglo, hlnghi⟩ := isLongitudeInRange_elim _ h2
  have hlngdeg : toDegrees (lonRad center) = lng := by
    unfold lonRad
    rw [hlng, toReal_finite, toDegrees_toRadians]
  have hdpos : 0 < toDegrees d := by
    rw [hlngdeg] at heast
    linarith
  rw [computeBoundingBox_of_valid _ _ h1 h2, if_neg hpole]
  constructor
  · show maxLongitudeOf center radiusKm = JSNum.finite 180
    unfold maxLongitudeOf clampLongitude
    rw [hd]
    simp only [jadd_finite_finite, toDegreesNum_finite, jmax_finite_finite, jmin_finite_finite,
      MIN_LONGITUDE, MAX_LONGITUDE]
    rw [toDegrees_add, max_eq_left (by linarith), min_eq_right (by linarith)]
  · show minLongitudeOf center radiusKm = JSNum.finite (toDegrees (lonRad center) - toDegrees d)
    unfold minLongitudeOf clampLongitude
    rw [hd]
    simp only [jsub_finite_finite, toDegreesNum_finite, jmax_finite_finite, jmin_finite_finite,
      MIN_LONGITUDE, MAX_LONGITUDE]
    rw [toDegrees_sub, max_eq_left (by linarith),
      min_eq_left (by rw [hlngdeg]; linarith)]

/-- Witness for amended C2 at center (0, 180) with radius 1 km. -/
theorem boundingBox_antimeridian_clamped_witness :
    (¬ poleCondition ⟨JSNum.finite 0, JSNum.finite 180⟩ (JSNum.finite 1)) ∧
      deltaLongitude ⟨JSNum.finite 0, JSNum.finite 180⟩ (JSNum.finite 1) =
        JSNum.finite (1 / EARTH_RADIUS_KM) ∧
      180 < toDegrees (lonRad ⟨JSNum.finite 0, JSNum.finite 180⟩) +
        toDegrees (1 / EARTH_RADIUS_KM) ∧
      (computeBoundingBox ⟨JSNum.finite 0, JSNum.finite 180⟩ (JSNum.finite 1)).maxLongitude =
        JSNum.finite 180 ∧
      (computeBoundingBox ⟨JSNum.finite 0, JSNum.finite 180⟩ (JSNum.finite 1)).minLongitude =
        JSNum.finite (toDegrees (lonRad ⟨JSNum.finite 0, JSNum.finite 180⟩) -
          toDegrees (1 / EARTH_RADIUS_KM)) := by
  have hdeg : toDegrees (lonRad ⟨JSNum.finite 0, JSNum.finite 180⟩) = 180 := by
    unfold lonRad
    rw [toReal_finite, toDegrees_toRadians]
  have heast : 180 < toDegrees (lonRad ⟨JSNum.finite 0, JSNum.finite 180⟩) +
      toDegrees (1 / EARTH_RADIUS_KM) := by
    rw [hdeg]
    linarith [toDegrees_inv_earth_pos]
  have hwest : -180 < toDegrees (lonRad ⟨JSNum.finite 0, JSNum.finite 180⟩) -
      toDegrees (1 / EARTH_RADIUS_KM) := by
    rw [hdeg]
    linarith [toDegrees_inv_earth_lt_one]
  obtain ⟨ha, hb⟩ := boundingBox_antimeridian_clamped ⟨JSNum.finite 0, JSNum.finite 180⟩
    (JSNum.finite 1) (1 / EARTH_RADIUS_KM) (by norm_num) (by norm_num)
    poleCondition_c0_false deltaLongitude_c0 heast hwest
  exact ⟨poleCondition_c0_false, deltaLongitude_c0, heast, ha, hb⟩

/-! ### Spherical geometry lemmas for the containment claim -/

theorem toRadians_sub (a b : ℝ) : toRadians (a - b) = toRadians a - toRadians b := by
  unfold toRadians
  ring

theorem toRadians_add (a b : ℝ) : toRadians (a + b) = toRadians a + toRadians b := by
  unfold toRadians
  ring

theorem toRadians_toDegrees (x : ℝ) : toRadians (toDegrees x) = x := by
  unfold toRadians toDegrees
  field_simp

theorem toRadians_oneEighty : toRadians 180 = π := by
  unfold toRadians
  ring

theorem toRadians_neg_oneEighty : toRadians (-180) = -π := by
  unfold toRadians
  ring

theorem hav_a_identity (x1 x2 dy : ℝ) :
    Real.sin ((x2 - x1) / 2) ^ 2 + Real.sin (dy / 2) ^ 2 * Real.cos x1 * Real.cos x2 =
      (1 - (Real.sin x1 * Real.sin x2 + Real.cos x1 * Real.cos x2 * Real.cos dy)) / 2 := by
  have e1 : 2 * ((x2 - x1) / 2) = x2 - x1 := by ring
  have e2 : 2 * (dy / 2) = dy := by ring
  rw [Real.sin_sq_eq_half_sub, Real.sin_sq_eq_half_sub, e1, e2, Real.cos_sub]
  ring

theorem atan2_sqrt_eq_arcsin (a : ℝ) (h0 : 0 ≤ a) (h1 : a ≤ 1) :
    atan2 (Real.sqrt a) (Real.sqrt (1 - a)) = Real.arcsin (Real.sqrt a) := by
  rcases lt_or_eq_of_le h1 with hlt | heq
  · have hx : 0 < Real.sqrt (1 - a) := Real.sqrt_pos.mpr (by linarith)
    unfold atan2
    rw [if_pos hx]
    have hmem : Real.sqrt a ∈ Set.Ioo (-(1:ℝ)) 1 := by
      constructor
      · linarith [Real.sqrt_nonneg a]
      · calc Real.sqrt a < Real.sqrt 1 := Real.sqrt_lt_sqrt h0 hlt
          _ = 1 := Real.sqrt_one
    rw [Real.arcsin_eq_arctan hmem, Real.sq_sqrt h0]
  · subst heq
    simp only [sub_self, Real.sqrt_zero, Real.sqrt_one, Real.arcsin_one]
    unfold atan2
    norm_num [Real.pi_pos]

theorem arcsin_abs_sin (u : ℝ) (hu : |u| ≤ π / 2) : Real.arcsin |Real.sin u| = |u| := by
  have hpi := Real.pi_pos
  obtain ⟨hu1, hu2⟩ := abs_le.mp hu
  rcases le_or_lt 0 u with h | h
  · rw [abs_of_nonneg (Real.sin_nonneg_of_nonneg_of_le_pi h (by linarith)),
      abs_of_nonneg h, Real.arcsin_sin hu1 hu2]
  · have hsle : Real.sin u ≤ 0 := by
      have hn := Real.sin_nonneg_of_nonneg_of_le_pi (by linarith : (0:ℝ) ≤ -u) (by linarith)
      rw [Real.sin_neg] at hn
      linarith
    rw [abs_of_neg h, abs_of_nonpos hsle, ← Real.sin_neg,
      Real.arcsin_sin (by linarith) (by linarith)]

theorem abs_le_arcsin_sqrt (x1 x2 : ℝ) (a : ℝ)
    (hax : Real.sin ((x2 - x1) / 2) ^ 2 ≤ a)
    (hx1 : |x1| ≤ π / 2) (hx2 : |x2| ≤ π / 2) :
    |x2 - x1| / 2 ≤ Real.arcsin (Real.sqrt a) := by
  have hs : |Real.sin ((x2 - x1) / 2)| ≤ Real.sqrt a := by
    rw [← Real.sqrt_sq_eq_abs]
    exact Real.sqrt_le_sqrt hax
  have htri : |x2 - x1| ≤ |x2| + |x1| := by
    calc |x2 - x1| = |x2 + -x1| := by ring_nf
      _ ≤ |x2| + |-x1| := abs_add _ _
      _ = |x2| + |x1| := by rw [abs_neg]
  have habs : |(x2 - x1) / 2| ≤ π / 2 := by
    rw [abs_div, abs_two]
    obtain h1 := abs_le.mp hx1
    obtain h2 := abs_le.mp hx2
    rw [div_le_div_iff (by norm_num) (by norm_num)]
    linarith
  calc |x2 - x1| / 2 = |(x2 - x1) / 2| := by rw [abs_div, abs_two]
    _ = Real.arcsin |Real.sin ((x2 - x1) / 2)| := (arcsin_abs_sin _ habs).symm
    _ ≤ Real.arcsin (Real.sqrt a) := Real.monotone_arcsin hs

theorem inner_le_cos (u v s2 c2 cosang : ℝ)
    (hsc : s2 ^ 2 + c2 ^ 2 = 1)
    (huv : u ^ 2 + v ^ 2 = cosang ^ 2)
    (hca : 0 ≤ cosang) :
    u * s2 + v * c2 ≤ cosang := by
  nlinarith [sq_nonneg (u * c2 - v * s2), sq_nonneg (u * s2 + v * c2 - cosang),
    sq_nonneg (u * s2 + v * c2 + cosang)]

theorem cos_lt_cos_outside (delta t : ℝ) (h0 : 0 ≤ delta) (hpi : delta ≤ π)
    (h1 : delta < t) (h2 : t < 2 * π - delta) : Real.cos t < Real.cos delta := by
  rcases le_or_lt t π with h | h
  · exact Real.strictAntiOn_cos ⟨h0, hpi⟩ ⟨by linarith, h⟩ h1
  · rw [(Real.cos_two_pi_sub t).symm]
    exact Real.strictAntiOn_cos ⟨h0, hpi⟩ ⟨by linarith, by linarith⟩ (by linarith)

theorem unwrap_interval (y1 y2 delta : ℝ)
    (hy2lo : -π ≤ y2) (hy2hi : y2 ≤ π)
    (hd0 : 0 ≤ delta) (hdpi : delta ≤ π / 2)
    (hwest : -π < y1 - delta) (heast : y1 + delta < π)
    (hcos : Real.cos delta ≤ Real.cos (y2 - y1)) :
    y1 - delta ≤ y2 ∧ y2 ≤ y1 + delta := by
  have hpi := Real.pi_pos
  constructor
  · by_contra hlt
    push_neg at hlt
    have h1 : delta < y1 - y2 := by linarith
    have h2 : y1 - y2 < 2 * π - delta := by linarith
    have hc := cos_lt_cos_outside delta (y1 - y2) hd0 (by linarith) h1 h2
    rw [← Real.cos_neg (y1 - y2)] at hc
    have he : -(y1 - y2) = y2 - y1 := by ring
    rw [he] at hc
    linarith
  · by_contra hlt
    push_neg at hlt
    have h1 : delta < y2 - y1 := by linarith
    have h2 : y2 - y1 < 2 * π - delta := by linarith
    have hc := cos_lt_cos_outside delta (y2 - y1) hd0 (by linarith) h1 h2
    linarith

theorem cos_dy_ge (x1 x2 dy ang q : ℝ)
    (hang0 : 0 < ang)
    (hb1 : -(π / 2) < x1 - ang) (hb2 : x1 + ang < π / 2)
    (hx2 : |x2 - x1| ≤ ang)
    (hq : q = Real.sin ang / Real.cos x1)
    (hE : Real.cos ang ≤ Real.sin x1 * Real.sin x2 + Real.cos x1 * Real.cos x2 * Real.cos dy) :
    Real.cos (Real.arcsin q) ≤ Real.cos dy := by
  have hpi := Real.pi_pos
  obtain ⟨hsinpos, hsinlt⟩ := sin_ang_lt_cos_of_bounds x1 ang hang0 hb1 hb2
  have hcx1 : 0 < Real.cos x1 := lt_trans hsinpos hsinlt
  obtain ⟨hx2a, hx2b⟩ := abs_le.mp hx2
  have hcx2 : 0 < Real.cos x2 := by
    apply Real.cos_pos_of_mem_Ioo
    constructor
    · linarith
    · linarith
  have hq0 : 0 < q := by
    rw [hq]
    exact div_pos hsinpos hcx1
  have hq1 : q < 1 := by
    rw [hq]
    exact (div_lt_one hcx1).mpr hsinlt
  have hcd : Real.cos (Real.arcsin q) = Real.sqrt (1 - q ^ 2) := Real.cos_arcsin q
  have hcdsq : Real.cos (Real.arcsin q) ^ 2 = 1 - q ^ 2 := by
    rw [hcd]
    exact Real.sq_sqrt (by nlinarith)
  have hcosang : 0 < Real.cos ang := by
    apply Real.cos_pos_of_mem_Ioo
    constructor
    · linarith
    · linarith
  have hqc2 : q ^ 2 * Real.cos x1 ^ 2 = Real.sin ang ^ 2 := by
    rw [hq]
    field_simp
  have hkey : Real.sin x1 ^ 2 + (Real.cos (Real.arcsin q) * Real.cos x1) ^ 2 =
      Real.cos ang ^ 2 := by
    have hs1 := Real.sin_sq_add_cos_sq x1
    have hs2 := Real.sin_sq_add_cos_sq ang
    nlinarith [hcdsq, hqc2]
  have hcs : Real.sin x1 * Real.sin x2 +
      (Real.cos (Real.arcsin q) * Real.cos x1) * Real.cos x2 ≤ Real.cos ang :=
    inner_le_cos _ _ _ _ _ (Real.sin_sq_add_cos_sq x2) hkey (le_of_lt hcosang)
  have hmul : Real.cos (Real.arcsin q) * (Real.cos x1 * Real.cos x2) ≤
      Real.cos dy * (Real.cos x1 * Real.cos x2) := by
    nlinarith [hE, hcs]
  exact le_of_mul_le_mul_right hmul (by positivity)

theorem sq_bound_of_sqrt_le (a b : ℝ) (ha : 0 ≤ a) (hb : 0 ≤ b) (h : Real.sqrt a ≤ b) :
    a ≤ b ^ 2 := by
  nlinarith [Real.sq_sqrt ha, Real.sqrt_nonneg a]

theorem containment_core_rad (x1 x2 y1 y2 ang : ℝ)
    (hx1 : |x1| ≤ π / 2) (hx2 : |x2| ≤ π / 2)
    (hy2lo : -π ≤ y2) (hy2hi : y2 ≤ π)
    (hang0 : 0 < ang)
    (hd : EARTH_RADIUS_KM * (2 * atan2
        (Real.sqrt (Real.sin ((x2 - x1) / 2) ^ 2 +
          Real.sin ((y2 - y1) / 2) ^ 2 * Real.cos x1 * Real.cos x2))
        (Real.sqrt (1 - (Real.sin ((x2 - x1) / 2) ^ 2 +
          Real.sin ((y2 - y1) / 2) ^ 2 * Real.cos x1 * Real.cos x2)))) ≤
      ang * EARTH_RADIUS_KM) :
    |x2 - x1| ≤ ang ∧
    (-(π / 2) < x1 - ang → x1 + ang < π / 2 →
      -π < y1 - Real.arcsin (Real.sin ang / Real.cos x1) →
      y1 + Real.arcsin (Real.sin ang / Real.cos x1) < π →
      y1 - Real.arcsin (Real.sin ang / Real.cos x1) ≤ y2 ∧
        y2 ≤ y1 + Real.arcsin (Real.sin ang / Real.cos x1)) := by
  have hpi := Real.pi_pos
  obtain ⟨hx1lo, hx1hi⟩ := abs_le.mp hx1
  obtain ⟨hx2lo, hx2hi⟩ := abs_le.mp hx2
  have hcx1 : 0 ≤ Real.cos x1 := Real.cos_nonneg_of_mem_Icc ⟨hx1lo, hx1hi⟩
  have hcx2 : 0 ≤ Real.cos x2 := Real.cos_nonneg_of_mem_Icc ⟨hx2lo, hx2hi⟩
  obtain ⟨A, hAdef⟩ : ∃ A : ℝ, A = Real.sin ((x2 - x1) / 2) ^ 2 +
      Real.sin ((y2 - y1) / 2) ^ 2 * Real.cos x1 * Real.cos x2 := ⟨_, rfl⟩
  rw [← hAdef] at hd
  have hA0 : 0 ≤ A := by
    rw [hAdef]
    exact add_nonneg (sq_nonneg _) (mul_nonneg (mul_nonneg (sq_nonneg _) hcx1) hcx2)
  have hAeq : A = (1 - (Real.sin x1 * Real.sin x2 +
      Real.cos x1 * Real.cos x2 * Real.cos (y2 - y1))) / 2 := by
    rw [hAdef]
    exact hav_a_identity x1 x2 (y2 - y1)
  have hElo : -1 ≤ Real.sin x1 * Real.sin x2 +
      Real.cos x1 * Real.cos x2 * Real.cos (y2 - y1) := by
    have hprod : 0 ≤ (Real.cos (y2 - y1) + 1) * (Real.cos x1 * Real.cos x2) :=
      mul_nonneg (by linarith [Real.neg_one_le_cos (y2 - y1)]) (mul_nonneg hcx1 hcx2)
    nlinarith [hprod, Real.cos_add x1 x2, Real.cos_le_one (x1 + x2)]
  have hA1 : A ≤ 1 := by
    rw [hAeq]
    linarith
  have hER : (0:ℝ) < EARTH_RADIUS_KM := by norm_num [EARTH_RADIUS_KM]
  have harc : Real.arcsin (Real.sqrt A) ≤ ang / 2 := by
    rw [atan2_sqrt_eq_arcsin A hA0 hA1] at hd
    nlinarith
  have hfirst : Real.sin ((x2 - x1) / 2) ^ 2 ≤ A := by
    rw [hAdef]
    nlinarith [mul_nonneg (mul_nonneg (sq_nonneg (Real.sin ((y2 - y1) / 2))) hcx1) hcx2]
  have hdlat2 : |x2 - x1| / 2 ≤ Real.arcsin (Real.sqrt A) :=
    abs_le_arcsin_sqrt x1 x2 A hfirst hx1 hx2
  have hdlat : |x2 - x1| ≤ ang := by linarith
  refine ⟨hdlat, ?_⟩
  intro hb1 hb2 hwest heast
  have hangp2 : ang < π / 2 := by linarith
  obtain ⟨hsinpos, hsinlt⟩ := sin_ang_lt_cos_of_bounds x1 ang hang0 hb1 hb2
  have hcx1pos : 0 < Real.cos x1 := lt_trans hsinpos hsinlt
  obtain ⟨q, hqdef⟩ : ∃ q : ℝ, q = Real.sin ang / Real.cos x1 := ⟨_, rfl⟩
  rw [← hqdef] at hwest heast ⊢
  have hq0 : 0 < q := by
    rw [hqdef]
    exact div_pos hsinpos hcx1pos
  have hq1 : q < 1 := by
    rw [hqdef]
    exact (div_lt_one hcx1pos).mpr hsinlt
  have hd0 : 0 ≤ Real.arcsin q := le_of_lt (Real.arcsin_pos.mpr hq0)
  have hdp2 : Real.arcsin q ≤ π / 2 := Real.arcsin_le_pi_div_two q
  have hsq : Real.sqrt A ≤ Real.sin (ang / 2) := by
    have hmemA : Real.arcsin (Real.sqrt A) ∈ Set.Icc (-(π / 2)) (π / 2) :=
      Real.arcsin_mem_Icc _
    have h1 : Real.sin (Real.arcsin (Real.sqrt A)) ≤ Real.sin (ang / 2) :=
      Real.sin_le_sin_of_le_of_le_pi_div_two hmemA.1 (by linarith) harc
    have hle1 : Real.sqrt A ≤ 1 := by
      calc Real.sqrt A ≤ Real.sqrt 1 := Real.sqrt_le_sqrt hA1
        _ = 1 := Real.sqrt_one
    rwa [Real.sin_arcsin (by linarith [Real.sqrt_nonneg A]) hle1] at h1
  have hA_le : A ≤ Real.sin (ang / 2) ^ 2 := by
    have hsnn : 0 ≤ Real.sin (ang / 2) :=
      Real.sin_nonneg_of_nonneg_of_le_pi (by linarith) (by linarith)
    exact sq_bound_of_sqrt_le A _ hA0 hsnn hsq
  have hE2 : Real.cos ang ≤ Real.sin x1 * Real.sin x2 +
      Real.cos x1 * Real.cos x2 * Real.cos (y2 - y1) := by
    have hca : Real.cos ang = 1 - 2 * Real.sin (ang / 2) ^ 2 := by
      have hh := Real.sin_sq_eq_half_sub (ang / 2)
      have e : 2 * (ang / 2) = ang := by ring
      rw [e] at hh
      linarith
    rw [hAeq] at hA_le
    linarith
  have hcosdy := cos_dy_ge x1 x2 (y2 - y1) ang q hang0 hb1 hb2 hdlat hqdef hE2
  exact unwrap_interval y1 y2 (Real.arcsin q) hy2lo hy2hi hd0 hdp2 hwest heast hcosdy

/-! ### Claim C1 -/

theorem haversine_antipode_zero :
    calculateHaversineDistanceKm ⟨JSNum.finite 0, JSNum.finite 180⟩
      ⟨JSNum.finite 0, JSNum.finite (-180)⟩ = JSNum.finite 0 := by
  rw [calculateHaversineDistanceKm_of_valid _ _ (by norm_num) (by norm_num) (by norm_num)
    (by norm_num)]
  congr 1
  simp only [toReal_finite, haversineKmReal]
  have ha : Real.sin (toRadians ((0:ℝ) - 0) / 2) ^ 2 +
      Real.sin (toRadians ((-180:ℝ) - 180) / 2) ^ 2 * Real.cos (toRadians (0:ℝ)) *
        Real.cos (toRadians (0:ℝ)) = 0 := by
    have e1 : toRadians ((0:ℝ) - 0) / 2 = 0 := by
      unfold toRadians
      ring
    have e2 : toRadians ((-180:ℝ) - 180) / 2 = -π := by
      unfold toRadians
      ring
    have e3 : toRadians (0:ℝ) = 0 := by
      unfold toRadians
      ring
    rw [e1, e2, e3]
    simp [Real.sin_neg, Real.sin_pi]
  rw [ha]
  norm_num [atan2, Real.sqrt_one, Real.arctan_zero]

/-- C1 counterexample: the point (0, -180) is at haversine distance 0
(hence within radius 1 km) of the valid center (0, 180), because the
haversine formula wraps the 360-degree longitude difference; yet the box
computed for that center and radius has minLongitude about 179.99, so
the point's longitude -180 lies outside the box. -/
theorem boundingBox_containment_counterexample :
    jle (calculateHaversineDistanceKm ⟨JSNum.finite 0, JSNum.finite 180⟩
        ⟨JSNum.finite 0, JSNum.finite (-180)⟩) (JSNum.finite 1) ∧
      isLatitudeInRange (JSNum.finite 0) ∧ isLongitudeInRange (JSNum.finite (-180)) ∧
      ¬ jle (computeBoundingBox ⟨JSNum.finite 0, JSNum.finite 180⟩ (JSNum.finite 1)).minLongitude
          (JSNum.finite (-180)) := by
  refine ⟨?_, by norm_num, by norm_num, ?_⟩
  · rw [haversine_antipode_zero]
    norm_num
  · rw [computeBoundingBox_c0]
    simp only [jle_finite_finite]
    intro h
    linarith [toDegrees_inv_earth_lt_one]

/-- C1 amended: for every valid center, every radius, and every valid
point within haversine distance of the center at most the radius, the
point's latitude always lies between the box's latitude bounds; and
provided the search area does not cross the antimeridian
(`noAntimeridianCrossing`), the point's longitude also lies between the
box's longitude bounds.  (Unconditional longitude containment is refuted
by `boundingBox_containment_counterexample`.) -/
theorem boundingBox_containment (center p : GeoCoordinate) (radiusKm : JSNum)
    (hc1 : isLatitudeInRange center.latitude) (hc2 : isLongitudeInRange center.longitude)
    (hp1 : isLatitudeInRange p.latitude) (hp2 : isLongitudeInRange p.longitude)
    (hdist : jle (calculateHaversineDistanceKm center p) radiusKm) :
    (jle (computeBoundingBox center radiusKm).minLatitude p.latitude ∧
      jle p.latitude (computeBoundingBox center radiusKm).maxLatitude) ∧
    (noAntimeridianCrossing center radiusKm →
      jle (computeBoundingBox center radiusKm).minLongitude p.longitude ∧
        jle p.longitude (computeBoundingBox center radiusKm).maxLongitude) := by
  obtain ⟨lat1, hl1, hl1lo, hl1hi⟩ := isLatitudeInRange_elim _ hc1
  obtain ⟨lng1, hg1, hg1lo, hg1hi⟩ := isLongitudeInRange_elim _ hc2
  obtain ⟨lat2, hl2, hl2lo, hl2hi⟩ := isLatitudeInRange_elim _ hp1
  obtain ⟨lng2, hg2, hg2lo, hg2hi⟩ := isLongitudeInRange_elim _ hp2
  have hdval : calculateHaversineDistanceKm center p =
      JSNum.finite (haversineKmReal lat1 lng1 lat2 lng2) := by
    rw [calculateHaversineDistanceKm_of_valid center p hc1 hp1 hc2 hp2, hl1, hg1, hl2, hg2]
    simp only [toReal_finite]
  cases radiusKm with
  | nan =>
      rw [hdval] at hdist
      exact absurd hdist (jle_finite_nan _)
  | negInf =>
      rw [hdval] at hdist
      exact absurd hdist (jle_finite_negInf _)
  | posInf =>
      rw [computeBoundingBox_of_valid _ _ hc1 hc2, if_pos (poleCondition_posInf center),
        minLatitudeOf_posInf, maxLatitudeOf_posInf]
      simp only [MIN_LONGITUDE, MAX_LONGITUDE]
      rw [hl2, hg2]
      simp only [jle_finite_finite]
      exact ⟨⟨by linarith, by linarith⟩, fun _ => ⟨by linarith, by linarith⟩⟩
  | finite R =>
    have hs : safeRadiusKm (JSNum.finite R) = JSNum.finite (max R 0.1) := by
      simp [safeRadiusKm]
    have hs0 : (0:ℝ) < max R 0.1 := lt_of_lt_of_le (by norm_num) (le_max_right _ _)
    have hER : (0:ℝ) < EARTH_RADIUS_KM := by norm_num [EARTH_RADIUS_KM]
    have hang0 : 0 < max R 0.1 / EARTH_RADIUS_KM := div_pos hs0 hER
    have hdreal : haversineKmReal lat1 lng1 lat2 lng2 ≤ R := by
      rw [hdval] at hdist
      exact hdist
    have hx1 : |toRadians lat1| ≤ π / 2 := by
      rw [abs_le]
      constructor
      · rw [← toRadians_neg_ninety]
        exact toRadians_le_toRadians _ _ hl1lo
      · rw [← toRadians_ninety]
        exact toRadians_le_toRadians _ _ hl1hi
    have hx2 : |toRadians lat2| ≤ π / 2 := by
      rw [abs_le]
      constructor
      · rw [← toRadians_neg_ninety]
        exact toRadians_le_toRadians _ _ hl2lo
      · rw [← toRadians_ninety]
        exact toRadians_le_toRadians _ _ hl2hi
    have hy2lo : -π ≤ toRadians lng2 := by
      rw [← toRadians_neg_oneEighty]
      exact toRadians_le_toRadians _ _ hg2lo
    have hy2hi : toRadians lng2 ≤ π := by
      rw [← toRadians_oneEighty]
      exact toRadians_le_toRadians _ _ hg2hi
    have hdexp : haversineKmReal lat1 lng1 lat2 lng2 =
        EARTH_RADIUS_KM * (2 * atan2
          (Real.sqrt (Real.sin ((toRadians lat2 - toRadians lat1) / 2) ^ 2 +
            Real.sin ((toRadians lng2 - toRadians lng1) / 2) ^ 2 *
              Real.cos (toRadians lat1) * Real.cos (toRadians lat2)))
          (Real.sqrt (1 - (Real.sin ((toRadians lat2 - toRadians lat1) / 2) ^ 2 +
            Real.sin ((toRadians lng2 - toRadians lng1) / 2) ^ 2 *
              Real.cos (toRadians lat1) * Real.cos (toRadians lat2))))) := by
      simp only [haversineKmReal]
      rw [toRadians_sub lat2 lat1, toRadians_sub lng2 lng1]
    have hdcore : EARTH_RADIUS_KM * (2 * atan2
        (Real.sqrt (Real.sin ((toRadians lat2 - toRadians lat1) / 2) ^ 2 +
          Real.sin ((toRadians lng2 - toRadians lng1) / 2) ^ 2 *
            Real.cos (toRadians lat1) * Real.cos (toRadians lat2)))
        (Real.sqrt (1 - (Real.sin ((toRadians lat2 - toRadians lat1) / 2) ^ 2 +
          Real.sin ((toRadians lng2 - toRadians lng1) / 2) ^ 2 *
            Real.cos (toRadians lat1) * Real.cos (toRadians lat2))))) ≤
        max R 0.1 / EARTH_RADIUS_KM * EARTH_RADIUS_KM := by
      rw [← hdexp, div_mul_cancel₀ _ (ne_of_gt hER)]
      exact le_trans hdreal (le_max_left _ _)
    obtain ⟨hdlat, hlon⟩ := containment_core_rad (toRadians lat1) (toRadians lat2)
      (toRadians lng1) (toRadians lng2) (max R 0.1 / EARTH_RADIUS_KM)
      hx1 hx2 hy2lo hy2hi hang0 hdcore
    obtain ⟨hdlatlo, hdlathi⟩ := abs_le.mp hdlat
    have hlr : latRad center = toRadians lat1 := by
      unfold latRad
      rw [hl1, toReal_finite]
    have hgr : lonRad center = toRadians lng1 := by
      unfold lonRad
      rw [hg1, toReal_finite]
    have hminlat : min (max (toDegrees (latRad center - max R 0.1 / EARTH_RADIUS_KM)) (-90))
        90 ≤ lat2 := by
      have hv : toDegrees (latRad center - max R 0.1 / EARTH_RADIUS_KM) ≤ lat2 := by
        rw [hlr]
        have h := toDegrees_mono (toRadians lat1 - max R 0.1 / EARTH_RADIUS_KM)
          (toRadians lat2) (by linarith)
        rwa [toDegrees_toRadians] at h
      exact le_trans (min_le_left _ _) (max_le hv (by linarith))
    have hmaxlat : lat2 ≤ min (max (toDegrees (latRad center + max R 0.1 / EARTH_RADIUS_KM))
        (-90)) 90 := by
      have hv : lat2 ≤ toDegrees (latRad center + max R 0.1 / EARTH_RADIUS_KM) := by
        rw [hlr]
        have h := toDegrees_mono (toRadians lat2)
          (toRadians lat1 + max R 0.1 / EARTH_RADIUS_KM) (by linarith)
        rwa [toDegrees_toRadians] at h
      exact le_min (le_trans hv (le_max_left _ _)) hl2hi
    by_cases hpole : poleCondition center (JSNum.finite R)
    · rw [computeBoundingBox_of_valid _ _ hc1 hc2, if_pos hpole,
        minLatitudeOf_of_safe _ _ _ hs, maxLatitudeOf_of_safe _ _ _ hs]
      simp only [MIN_LONGITUDE, MAX_LONGITUDE]
      rw [hl2, hg2]
      simp only [jle_finite_finite]
      exact ⟨⟨hminlat, hmaxlat⟩, fun _ => ⟨by linarith, by linarith⟩⟩
    · obtain ⟨hb1, hb2⟩ := notPole_radian_bounds center (JSNum.finite R) (max R 0.1) hs hpole
      rw [hlr] at hb1 hb2
      obtain ⟨hsin, hlt⟩ := sin_ang_lt_cos_of_bounds (toRadians lat1)
        (max R 0.1 / EARTH_RADIUS_KM) hang0 hb1 hb2
      have hlt2 : Real.sin (max R 0.1 / EARTH_RADIUS_KM) < Real.cos (latRad center) := by
        rw [hlr]
        exact hlt
      obtain ⟨hdeq, hdpos, hdp2⟩ := deltaLongitude_eval center (JSNum.finite R)
        (max R 0.1) hs hsin hlt2
      rw [hlr] at hdeq hdpos hdp2
      constructor
      · rw [computeBoundingBox_of_valid _ _ hc1 hc2, if_neg hpole,
          minLatitudeOf_of_safe _ _ _ hs, maxLatitudeOf_of_safe _ _ _ hs, hl2]
        simp only [jle_finite_finite]
        exact ⟨hminlat, hmaxlat⟩
      · rintro (hcross | ⟨d, hdeq2, hwestdeg, heastdeg⟩)
        · exact absurd hcross hpole
        · rw [hdeq] at hdeq2
          injection hdeq2 with hdd
          rw [← hdd] at hwestdeg heastdeg
          rw [hgr, toDegrees_toRadians] at hwestdeg heastdeg
          have hwestrad : -π < toRadians lng1 - Real.arcsin
              (Real.sin (max R 0.1 / EARTH_RADIUS_KM) / Real.cos (toRadians lat1)) := by
            have h := toRadians_lt_toRadians _ _ hwestdeg
            rwa [toRadians_neg_oneEighty, toRadians_sub, toRadians_toDegrees] at h
          have heastrad : toRadians lng1 + Real.arcsin
              (Real.sin (max R 0.1 / EARTH_RADIUS_KM) / Real.cos (toRadians lat1)) < π := by
            have h := toRadians_lt_toRadians _ _ heastdeg
            rwa [toRadians_oneEighty, toRadians_add, toRadians_toDegrees] at h
          obtain ⟨hcontlo, hconthi⟩ := hlon hb1 hb2 hwestrad heastrad
          have hlodeg : lng1 - toDegrees (Real.arcsin
              (Real.sin (max R 0.1 / EARTH_RADIUS_KM) / Real.cos (toRadians lat1))) ≤ lng2 := by
            have h := toDegrees_mono _ _ hcontlo
            rwa [toDegrees_sub, toDegrees_toRadians, toDegrees_toRadians] at h
          have hhideg : lng2 ≤ lng1 + toDegrees (Real.arcsin
              (Real.sin (max R 0.1 / EARTH_RADIUS_KM) / Real.cos (toRadians lat1))) := by
            have h := toDegrees_mono _ _ hconthi
            rwa [toDegrees_add, toDegrees_toRadians, toDegrees_toRadians] at h
          rw [computeBoundingBox_of_valid _ _ hc1 hc2, if_neg hpole]
          show jle (minLongitudeOf center (JSNum.finite R)) p.longitude ∧
            jle p.longitude (maxLongitudeOf center (JSNum.finite R))
          unfold minLongitudeOf maxLongitudeOf clampLongitude
          rw [hdeq, hgr, hg2]
          simp only [jsub_finite_finite, jadd_finite_finite, toDegreesNum_finite,
            jmax_finite_finite, jmin_finite_finite, MIN_LONGITUDE, MAX_LONGITUDE,
            jle_finite_finite]
          rw [toDegrees_sub, toDegrees_add, toDegrees_toRadians]
          constructor
          · exact le_trans (min_le_left _ _) (max_le hlodeg (by linarith))
          · exact le_min (le_trans hhideg (le_max_left _ _)) hg2hi

/-- Witness for amended C1: center (0, 0), radius 1 km, point (0, 0). -/
theorem boundingBox_containment_witness :
    isLatitudeInRange (JSNum.finite 0) ∧ isLongitudeInRange (JSNum.finite 0) ∧
      jle (calculateHaversineDistanceKm ⟨JSNum.finite 0, JSNum.finite 0⟩
        ⟨JSNum.finite 0, JSNum.finite 0⟩) (JSNum.finite 1) ∧
      ((jle (computeBoundingBox ⟨JSNum.finite 0, JSNum.finite 0⟩ (JSNum.finite 1)).minLatitude
          (JSNum.finite 0) ∧
        jle (JSNum.finite 0)
          (computeBoundingBox ⟨JSNum.finite 0, JSNum.finite 0⟩ (JSNum.finite 1)).maxLatitude) ∧
      (noAntimeridianCrossing ⟨JSNum.finite 0, JSNum.finite 0⟩ (JSNum.finite 1) →
        jle (computeBoundingBox ⟨JSNum.finite 0, JSNum.finite 0⟩ (JSNum.finite 1)).minLongitude
            (JSNum.finite 0) ∧
          jle (JSNum.finite 0)
            (computeBoundingBox ⟨JSNum.finite 0, JSNum.finite 0⟩
              (JSNum.finite 1)).maxLongitude)) := by
  have hd : calculateHaversineDistanceKm ⟨JSNum.finite 0, JSNum.finite 0⟩
      ⟨JSNum.finite 0, JSNum.finite 0⟩ = JSNum.finite 0 := by
    rw [calculateHaversineDistanceKm_of_valid _ _ (by norm_num) (by norm_num) (by norm_num)
      (by norm_num)]
    simp only [toReal_finite]
    rw [haversineKmReal_self]
  refine ⟨by norm_num, by norm_num, ?_, ?_⟩
  · rw [hd]
    norm_num
  · exact boundingBox_containment ⟨JSNum.finite 0, JSNum.finite 0⟩
      ⟨JSNum.finite 0, JSNum.finite 0⟩ (JSNum.finite 1) (by norm_num) (by norm_num)
      (by norm_num) (by norm_num) (by rw [hd]; norm_num)
